import Mathlib

/-!
# Verification of the Gin Rummy engine (nicholasconoplia/ginrummyaz)

A shallow embedding in Lean 4 of the server-side rule engine of the
repository: the card/deck model (`server/deck.js`), the meld validator
(`server/gameEngine.js`) and the match state machine / bot decision
engine (`server/gameManager.js`, reproduced in the repository's setup
document).  The JavaScript code mutates one canonical game state in
place; here every operation is a pure function from a `GameState` (plus
its arguments) to a new `GameState` paired with the result object the
source returns.

Modelling conventions, stated once:

* A JavaScript array cell that can hold `undefined` (the result of
  `shift()` or `pop()` on an empty array) is modelled as `Slot :=
  Option Card`; `none` is `undefined`.  Hands and the two piles are
  lists of slots.  Melds hold real cards: in the source, meld cards
  only ever come from successful hand lookups or candidate lists built
  from real cards.
* `Math.random()`-driven behaviour cannot be embedded: `shuffle` is
  passed in as an explicit function argument `sh` (the source's
  Fisher-Yates produces some permutation; theorems that need it assume
  `sh l ~ l`), and the `Date.now()`/random meld-id strings are passed
  in as explicit `freshId` arguments.
* JavaScript `findIndex` returns `-1` on failure; we use `findIdx?`
  returning `Option Nat`, which carries the same information.
* Where the source would throw a `TypeError` (field access on
  `undefined`), the embedding takes the harmless branch; every theorem
  below only covers states in which the source does not throw.
-/

namespace GinRummy

/-! ## Card / deck model (`server/deck.js`) -/

def SUITS : List String := ["hearts", "diamonds", "clubs", "spades"]

def RANKS : List String :=
  ["A", "2", "3", "4", "5", "6", "7", "8", "9", "10", "J", "Q", "K"]

/-- `parseInt` on the decimal numeral strings that reach it here
("2".."10").  Written as a digit fold because `String.toNat?` does not
reduce definitionally in the kernel. -/
def parseNumeral (s : String) : Nat :=
  s.data.foldl (fun acc ch => acc * 10 + (ch.toNat - 48)) 0

/-- `getRankValue(rank)`: numeric value of a rank (A=1, J=11, Q=12, K=13,
numerals parse to themselves). -/
def getRankValue (rank : String) : Nat :=
  if rank = "A" then 1
  else if rank = "J" then 11
  else if rank = "Q" then 12
  else if rank = "K" then 13
  else parseNumeral rank

structure Card where
  id : String
  rank : String
  suit : String
  value : Nat
  deckIndex : Nat
deriving Repr, DecidableEq, Inhabited

/-- A JS array cell holding a card or `undefined`. -/
abbrev Slot := Option Card

/-- `createDeck(deckIndex)`: the 52 cards of one deck, id
`deckIndex_rank_suit`. -/
def createDeck (deckIndex : Nat) : List Card :=
  SUITS.flatMap (fun suit =>
    RANKS.map (fun rank =>
      { id := s!"{deckIndex}_{rank}_{suit}"
        rank := rank
        suit := suit
        value := getRankValue rank
        deckIndex := deckIndex }))

/-- `createMultipleDecks(numDecks)`. -/
def createMultipleDecks (numDecks : Nat) : List Card :=
  (List.range numDecks).flatMap createDeck

structure DealResult where
  hands : List (List Slot)
  deck : List Slot
  discardPile : List Slot
deriving Repr, DecidableEq

/-- The loop of `dealCards`: `hands.push(remainingDeck.splice(0,
cardsPerPlayer))` for each of the `numPlayers` players. -/
def dealHands (deck : List Slot) (cardsPerPlayer : Nat) :
    Nat → List (List Slot) × List Slot
  | 0 => ([], deck)
  | n + 1 =>
      let h := deck.take cardsPerPlayer
      let rest := dealHands (deck.drop cardsPerPlayer) cardsPerPlayer n
      (h :: rest.1, rest.2)

/-- `remainingDeck.shift()`: removes and returns the front element;
`undefined` (`none`) when the array is empty. -/
def jsShift (deck : List Slot) : Slot × List Slot :=
  match deck with
  | [] => (none, [])
  | x :: xs => (x, xs)

/-- `dealCards(deck, numPlayers, cardsPerPlayer = 10)`: deals
`cardsPerPlayer` cards to each player in order from the front of the
pool, then `shift`s one more card to the discard pile.  The source has
no size check: a short pool yields short hands and an `undefined`
discard entry. -/
def dealCards (deck : List Slot) (numPlayers : Nat)
    (cardsPerPlayer : Nat := 10) : DealResult :=
  let dealt := dealHands deck cardsPerPlayer numPlayers
  let shifted := jsShift dealt.2
  { hands := dealt.1, deck := shifted.2, discardPile := [shifted.1] }

/-! ## Meld validator (`server/gameEngine.js`) -/

/-- The `isConsecutive` helper inside `isValidRun`, applied to the list
of (sorted) card values: each value is the previous plus one. -/
def isConsecutiveVals : List Nat → Bool
  | a :: b :: rest => (b == a + 1) && isConsecutiveVals (b :: rest)
  | _ => true

/-- `[...cards].sort((a, b) => a.value - b.value)`; JS sort is stable,
as is `List.insertionSort`. -/
def sortByValue (cards : List Card) : List Card :=
  cards.insertionSort (fun a b => a.value ≤ b.value)

/-- The ace-high reinterpretation used in the second attempt of
`isValidRun`: an Ace counts as 14, other cards keep their value. -/
def aceHighValue (c : Card) : Nat :=
  if c.rank = "A" then 14 else c.value

def sortByAceHighValue (cards : List Card) : List Card :=
  cards.insertionSort (fun a b => aceHighValue a ≤ aceHighValue b)

/-- `isValidRun(cards)`: 3+ cards, all of one suit, consecutive values
first with Ace = 1 and, failing that and if an Ace is present, with
Ace = 14. -/
def isValidRun (cards : List Card) : Bool :=
  if cards.length < 3 then false
  else
    match cards with
    | [] => false
    | c0 :: _ =>
      if !(cards.all (fun c => c.suit == c0.suit)) then false
      else if isConsecutiveVals ((sortByValue cards).map (fun c => c.value)) then
        true
      else if cards.any (fun c => c.rank == "A") then
        isConsecutiveVals ((sortByAceHighValue cards).map aceHighValue)
      else false

/-- `isValidSet(cards)`: 3+ cards all sharing the rank of `cards[0]`. -/
def isValidSet (cards : List Card) : Bool :=
  if cards.length < 3 then false
  else
    match cards with
    | [] => false
    | c0 :: _ => cards.all (fun c => c.rank == c0.rank)

/-- `isValidMeld(cards) = isValidRun(cards) || isValidSet(cards)`. -/
def isValidMeld (cards : List Card) : Bool :=
  isValidRun cards || isValidSet cards

structure Meld where
  cards : List Card
  playerId : String
  id : String
deriving Repr, DecidableEq

structure ValidationResult where
  valid : Bool
  error : Option String
deriving Repr, DecidableEq

/-- The indexed loop over `proposedMelds` in `validateRearrangement`
that reports the first non-empty proposed meld failing `isValidMeld`. -/
def findInvalidMeldError (melds : List Meld) (i : Nat) : Option String :=
  match melds with
  | [] => none
  | m :: rest =>
      if m.cards.length > 0 && !isValidMeld m.cards then
        some s!"Meld {i + 1} is not valid. Each meld must be a run (3+ consecutive same suit) or set (3+ same rank)."
      else findInvalidMeldError rest (i + 1)

/-- `playerHand.map(c => c.id)` (the source would throw on an
`undefined` hand entry; we skip such entries). -/
def slotIds (hand : List Slot) : List String :=
  hand.filterMap (fun s => s.map (fun c => c.id))

/-- `validateRearrangement(currentMelds, proposedMelds, playerHand)`:
(1) no current table card may disappear, (2) new cards must come from
the hand, (3) every non-empty proposed meld must be a legal meld,
(4) every non-empty proposed meld must have 3+ cards.  The checks run
in exactly this order and the first violated one produces the error. -/
def validateRearrangement (currentMelds proposedMelds : List Meld)
    (playerHand : List Slot) : ValidationResult :=
  let currentTableCards := currentMelds.flatMap (fun m => m.cards)
  let proposedTableCards := proposedMelds.flatMap (fun m => m.cards)
  let currentIds := currentTableCards.map (fun c => c.id)
  let proposedIds := proposedTableCards.map (fun c => c.id)
  let handIds := slotIds playerHand
  if currentIds.any (fun id => !proposedIds.contains id) then
    { valid := false
      error := some "Cannot remove cards from the table back to hand" }
  else if proposedIds.any (fun id =>
      !currentIds.contains id && !handIds.contains id) then
    { valid := false, error := some "New cards must come from your hand" }
  else
    match findInvalidMeldError proposedMelds 0 with
    | some e => { valid := false, error := some e }
    | none =>
        let validMelds := proposedMelds.filter (fun m => m.cards.length > 0)
        if validMelds.any (fun m => m.cards.length < 3) then
          { valid := false, error := some "Each meld must have at least 3 cards" }
        else { valid := true, error := none }

/-- `checkWin(playerHand)`: the hand is empty. -/
def checkWin (playerHand : List Slot) : Bool :=
  playerHand.length == 0

/-- `calculateHandPoints(hand)`: Ace 1, face cards 10, numerals face
value (the source would throw on an `undefined` entry; we skip it). -/
def calculateHandPoints (hand : List Slot) : Nat :=
  (hand.filterMap (fun s => s)).foldl
    (fun sum card =>
      if card.rank = "A" then sum + 1
      else if card.rank = "J" ∨ card.rank = "Q" ∨ card.rank = "K" then sum + 10
      else sum + card.value) 0

/-! ## Match state (`gameManager.js`) -/

structure Player where
  id : String
  name : String
  hand : List Slot
  connected : Bool
  isTestPlayer : Bool
deriving Repr, DecidableEq

structure ScoreEntry where
  name : String
  points : Nat
  isWinner : Bool
deriving Repr, DecidableEq

structure Winner where
  playerId : String
  playerName : String
  scores : List ScoreEntry
deriving Repr, DecidableEq

structure Settings where
  numDecks : Nat
deriving Repr, DecidableEq

/-- The per-match mutable state held in `this.games`; operations below
take the state of the match the `lobbyCode` lookup resolved (the
`if (!game) return { error: 'Game not found' }` guard is the caller's
map access). -/
structure GameState where
  lobbyCode : String
  players : List Player
  deck : List Slot
  discardPile : List Slot
  melds : List Meld
  currentTurn : Nat
  phase : String
  winner : Option Winner
  settings : Settings
deriving Repr, DecidableEq

structure InitPlayer where
  id : String
  name : String
  isTestPlayer : Bool
deriving Repr, DecidableEq

/-- `initGame(lobbyCode, players, settings, firstPlayerIndex)`:
shuffle `numDecks` decks (`settings.numDecks || 1`; `0` is falsy in
JS), deal 10 cards each, clamp the first player index. -/
def initGame (sh : List Slot → List Slot) (lobbyCode : String)
    (players : List InitPlayer) (settings : Settings)
    (firstPlayerIndex : Nat) : GameState :=
  let numDecks := if settings.numDecks = 0 then 1 else settings.numDecks
  let deck := sh ((createMultipleDecks numDecks).map (fun c => some c))
  let dealt := dealCards deck players.length 10
  let validFirstPlayer := min firstPlayerIndex (players.length - 1)
  { lobbyCode := lobbyCode
    players := players.enum.map (fun pi =>
      { id := pi.2.id
        name := pi.2.name
        hand := (dealt.hands[pi.1]?).getD []
        connected := true
        isTestPlayer := pi.2.isTestPlayer })
    deck := dealt.deck
    discardPile := dealt.discardPile
    melds := []
    currentTurn := validFirstPlayer
    phase := "draw"
    winner := none
    settings := settings }

/-- The result object of a player action; absent JS fields are `none`. -/
structure ActionResult where
  success : Bool
  error : Option String := none
  card : Slot := none
  winner : Option Winner := none
deriving Repr, DecidableEq

/-- The winner record built at each win site:
`{ playerId, playerName, scores: players.map(...) }`. -/
def mkWinner (s : GameState) (p : Player) : Winner :=
  { playerId := p.id
    playerName := p.name
    scores := s.players.map (fun q =>
      { name := q.name
        points := calculateHandPoints q.hand
        isWinner := q.id == p.id }) }

/-- `game.players.findIndex(p => p.id === playerId)` (`none` is `-1`). -/
def findPlayerIdx (s : GameState) (playerId : String) : Option Nat :=
  s.players.findIdx? (fun p => p.id == playerId)

/-- Functional image of the in-place `players[i].hand = ...` update. -/
def updateHand : List Player → Nat → List Slot → List Player
  | [], _, _ => []
  | p :: rest, 0, h => { p with hand := h } :: rest
  | p :: rest, n + 1, h => p :: updateHand rest n h

/-- Replace the hand of player `i`. -/
def setHand (s : GameState) (i : Nat) (newHand : List Slot) : GameState :=
  { s with players := updateHand s.players i newHand }

/-- `hand.find(c => c.id === id)` on a hand of slots (the source would
throw on an `undefined` entry before a match; none occur in the states
the theorems cover). -/
def findCardInHand (hand : List Slot) (id : String) : Option Card :=
  match hand.find? (fun sl => match sl with
    | some c => c.id == id
    | none => false) with
  | some (some c) => some c
  | _ => none

/-- `hand.findIndex(c => c.id === id)`. -/
def findCardIdx (hand : List Slot) (id : String) : Option Nat :=
  hand.findIdx? (fun sl => match sl with
    | some c => c.id == id
    | none => false)

/-- `const idx = hand.findIndex(c => c.id === id); if (idx !== -1)
hand.splice(idx, 1)`. -/
def removeCardById (hand : List Slot) (id : String) : List Slot :=
  match findCardIdx hand id with
  | some i => hand.eraseIdx i
  | none => hand

/-- `drawCard(lobbyCode, playerId, source)`. -/
def drawCard (sh : List Slot → List Slot) (s : GameState)
    (playerId source : String) : GameState × ActionResult :=
  match findPlayerIdx s playerId with
  | none => (s, { success := false, error := some "Player not found" })
  | some playerIndex =>
    if s.currentTurn ≠ playerIndex then
      (s, { success := false, error := some "Not your turn" })
    else if s.phase ≠ "draw" then
      (s, { success := false, error := some "Already drew a card this turn" })
    else if source = "deck" then
      -- reshuffle the discard pile minus its top card into the deck if empty
      let st :=
        if s.deck.length = 0 then
          match s.discardPile.getLast? with
          | some topCard =>
              { s with deck := sh (s.discardPile.dropLast)
                       discardPile := [topCard] }
          | none =>
              -- `pop()` on an empty discard pile returns `undefined`
              { s with deck := sh [], discardPile := [none] }
        else s
      let shifted := jsShift st.deck
      let drawnCard := shifted.1
      let st := { st with deck := shifted.2 }
      let st := match st.players[playerIndex]? with
        | some p => setHand st playerIndex (p.hand ++ [drawnCard])
        | none => st
      ({ st with phase := "play" },
        { success := true, card := drawnCard })
    else if source = "discard" then
      if s.discardPile.length = 0 then
        (s, { success := false, error := some "Discard pile is empty" })
      else
        let drawnCard := (s.discardPile.getLast?).getD none
        let st := { s with discardPile := s.discardPile.dropLast }
        let st := match st.players[playerIndex]? with
          | some p => setHand st playerIndex (p.hand ++ [drawnCard])
          | none => st
        ({ st with phase := "play" },
          { success := true, card := drawnCard })
    else (s, { success := false, error := some "Invalid source" })

/-- `playMeld(lobbyCode, playerId, cardIds)`; `freshId` stands for the
generated `meld_${Date.now()}_${random}` id. -/
def playMeld (s : GameState) (playerId : String) (cardIds : List String)
    (freshId : String) : GameState × ActionResult :=
  match findPlayerIdx s playerId with
  | none => (s, { success := false, error := some "Player not found" })
  | some playerIndex =>
    if s.currentTurn ≠ playerIndex then
      (s, { success := false, error := some "Not your turn" })
    else if s.phase ≠ "play" then
      (s, { success := false, error := some "Draw a card first" })
    else
      match s.players[playerIndex]? with
      | none => (s, { success := false, error := some "Player not found" })
      | some player =>
        -- cards = cardIds.map(id => hand.find(c => c.id === id)).filter(Boolean)
        let cards := (cardIds.map (fun id => findCardInHand player.hand id)).filterMap
          (fun x => x)
        if cards.length ≠ cardIds.length then
          (s, { success := false, error := some "Some cards not found in hand" })
        else if !isValidMeld cards then
          (s, { success := false,
                error := some "Invalid meld. Must be 3+ consecutive same suit or 3+ same rank" })
        else if ((player.hand.length : Int) - cards.length) = 0 then
          (s, { success := false,
                error := some "You cannot play all your cards. You must keep one card to discard to win." })
        else
          let newHand := cards.foldl (fun h c => removeCardById h c.id) player.hand
          let st := setHand s playerIndex newHand
          ({ st with melds := st.melds ++
              [{ cards := cards, playerId := playerId, id := freshId }] },
            { success := true })

/-- Replace the first meld whose id is `meldId` (the in-place
`meld.cards = newCards` on the meld `find` returned). -/
def setMeldCards (melds : List Meld) (meldId : String)
    (newCards : List Card) : List Meld :=
  match melds with
  | [] => []
  | m :: rest =>
      if m.id == meldId then { m with cards := newCards } :: rest
      else m :: setMeldCards rest meldId newCards

/-- `addToMeld(lobbyCode, playerId, cardId, meldId, position)`. -/
def addToMeld (s : GameState) (playerId cardId meldId position : String) :
    GameState × ActionResult :=
  match findPlayerIdx s playerId with
  | none => (s, { success := false, error := some "Player not found" })
  | some playerIndex =>
    if s.currentTurn ≠ playerIndex then
      (s, { success := false, error := some "Not your turn" })
    else if s.phase ≠ "play" then
      (s, { success := false, error := some "Draw a card first" })
    else
      match s.players[playerIndex]? with
      | none => (s, { success := false, error := some "Player not found" })
      | some player =>
        match findCardInHand player.hand cardId with
        | none => (s, { success := false, error := some "Card not found in hand" })
        | some card =>
          match s.melds.find? (fun m => m.id == meldId) with
          | none => (s, { success := false, error := some "Meld not found" })
          | some meld =>
            let newCards :=
              if position = "start" then card :: meld.cards
              else meld.cards ++ [card]
            if !isValidMeld newCards then
              (s, { success := false,
                    error := some "Adding this card would create an invalid meld" })
            else if ((player.hand.length : Int) - 1) = 0 then
              (s, { success := false,
                    error := some "You cannot play your last card. You must discard to win." })
            else
              let st := setHand s playerIndex (removeCardById player.hand cardId)
              ({ st with melds := setMeldCards st.melds meldId newCards },
                { success := true })

/-- `rearrangeTable(lobbyCode, playerId, proposedMelds, cardsFromHand)`. -/
def rearrangeTable (s : GameState) (playerId : String)
    (proposedMelds : List Meld) (cardsFromHand : List String) :
    GameState × ActionResult :=
  match findPlayerIdx s playerId with
  | none => (s, { success := false, error := some "Player not found" })
  | some playerIndex =>
    if s.currentTurn ≠ playerIndex then
      (s, { success := false, error := some "Not your turn" })
    else if s.phase ≠ "play" then
      (s, { success := false, error := some "Draw a card first" })
    else
      match s.players[playerIndex]? with
      | none => (s, { success := false, error := some "Player not found" })
      | some player =>
        let validation := validateRearrangement s.melds proposedMelds player.hand
        if !validation.valid then
          (s, { success := false, error := validation.error })
        else if ((player.hand.length : Int) - cardsFromHand.length) = 0 then
          (s, { success := false,
                error := some "You cannot play all your cards. You must keep one card to discard to win." })
        else
          let newHand := cardsFromHand.foldl (fun h id => removeCardById h id)
            player.hand
          let st := setHand s playerIndex newHand
          ({ st with melds := proposedMelds.filter (fun m => m.cards.length > 0) },
            { success := true })

/-- `discard(lobbyCode, playerId, cardId)`. -/
def discard (s : GameState) (playerId cardId : String) :
    GameState × ActionResult :=
  match findPlayerIdx s playerId with
  | none => (s, { success := false, error := some "Player not found" })
  | some playerIndex =>
    if s.currentTurn ≠ playerIndex then
      (s, { success := false, error := some "Not your turn" })
    else if s.phase ≠ "play" then
      (s, { success := false, error := some "Draw a card first" })
    else
      match s.players[playerIndex]? with
      | none => (s, { success := false, error := some "Player not found" })
      | some player =>
        match findCardIdx player.hand cardId with
        | none => (s, { success := false, error := some "Card not found in hand" })
        | some cardIdx =>
          let card := (player.hand[cardIdx]?).getD none
          let newHand := player.hand.eraseIdx cardIdx
          let st := setHand s playerIndex newHand
          let st := { st with discardPile := st.discardPile ++ [card] }
          if checkWin newHand then
            let player2 := { player with hand := newHand }
            let w := mkWinner st player2
            ({ st with winner := some w }, { success := true, winner := some w })
          else
            ({ st with
                currentTurn := (st.currentTurn + 1) % st.players.length
                phase := "draw" },
              { success := true })

/-- `endTurn(lobbyCode, playerId)`: note that the source checks neither
turn nor phase here; it only tests whether the caller's hand is empty.
A `playerId` that does not resolve makes the source throw
(`player.hand` on `undefined`); that branch is modelled as a plain
failure result and is outside every theorem below. -/
def endTurn (s : GameState) (playerId : String) : GameState × ActionResult :=
  match findPlayerIdx s playerId with
  | none => (s, { success := false, error := none })
  | some playerIndex =>
    match s.players[playerIndex]? with
    | none => (s, { success := false, error := none })
    | some player =>
      if checkWin player.hand then
        let w := mkWinner s player
        ({ s with winner := some w }, { success := true, winner := some w })
      else
        (s, { success := false,
              error := some "You must discard a card or go out with no cards" })

/-! ## Bot decision engine (`gameManager.js`) -/

/-- `Object.keys` order of a JS object built by successive insertions:
first-occurrence order. -/
def jsKeys (l : List String) : List String :=
  l.foldl (fun acc s => if acc.contains s then acc else acc ++ [s]) []

/-- The `bySuit` grouping: keys in first-occurrence order, each group
preserving the original order. -/
def groupBySuit (cards : List Card) : List (List Card) :=
  (jsKeys (cards.map (fun c => c.suit))).map
    (fun s => cards.filter (fun c => c.suit == s))

/-- The `byRank` grouping. -/
def groupByRank (cards : List Card) : List (List Card) :=
  (jsKeys (cards.map (fun c => c.rank))).map
    (fun r => cards.filter (fun c => c.rank == r))

/-- The greedy scan inside `findPossibleMelds`: extend the current run
on `value + 1`, skip an equal value, otherwise emit the run (if 3+) and
restart.  `run` is always non-empty. -/
def scanRuns (suitCards : List Card) (run : List Card) : List (List Card) :=
  match suitCards with
  | [] => if run.length ≥ 3 then [run] else []
  | c :: rest =>
      let lastVal := (run.getLast?.map (fun x => x.value)).getD 0
      if c.value = lastVal + 1 then scanRuns rest (run ++ [c])
      else if c.value ≠ lastVal then
        (if run.length ≥ 3 then [run] else []) ++ scanRuns rest [c]
      else scanRuns rest run
  termination_by suitCards.length

/-- `findPossibleMelds(hand)`: maximal consecutive runs per suit (only
for suit groups of 3+ cards) followed by one set (of at most 4) per
rank with 3+ cards. -/
def findPossibleMelds (hand : List Card) : List (List Card) :=
  let runs := (groupBySuit hand).flatMap (fun g =>
    let cards := sortByValue g
    if cards.length ≥ 3 then
      match cards with
      | [] => []
      | c :: rest => scanRuns rest [c]
    else [])
  let sets := (groupByRank hand).flatMap (fun g =>
    if g.length ≥ 3 then [g.take 4] else [])
  runs ++ sets

structure AddCheck where
  valid : Bool
  position : Option String := none
deriving Repr, DecidableEq

/-- `GameManager.canAddToMeld(card, meld)`: try splicing at the start,
then at the end. -/
def canAddToMeld (card : Card) (meld : Meld) : AddCheck :=
  if isValidMeld (card :: meld.cards) then
    { valid := true, position := some "start" }
  else if isValidMeld (meld.cards ++ [card]) then
    { valid := true, position := some "end" }
  else { valid := false }

/-- `isDiscardCardUseful(discardCard, hand, melds)`: the card extends a
table meld, or adding it to the hand increases the number of melds the
hand can form.  A falsy (`undefined`) card is not useful. -/
def isDiscardCardUseful (discardCard : Slot) (hand : List Card)
    (melds : List Meld) : Bool :=
  match discardCard with
  | none => false
  | some dc =>
      if melds.any (fun m => (canAddToMeld dc m).valid) then true
      else
        let possibleMelds := findPossibleMelds (hand ++ [dc])
        let currentMelds := findPossibleMelds hand
        currentMelds.length < possibleMelds.length

/-- The per-card score computed inside `findBestDiscard` (higher =
safer to discard).  Note the loop subtracts 20 for each table meld the
card can extend.  `Math.abs(c.value - card.value) === 1` is the
two-sided successor test. -/
def discardScore (hand : List Card) (melds : List Meld) (card : Card) : Int :=
  let base : Int := card.value
  let s1 := base -
    20 * ((melds.filter (fun m => (canAddToMeld card m).valid)).length : Int)
  let handWithoutCard := hand.filter (fun c => c.id != card.id)
  let meldsWithCard := findPossibleMelds hand
  let meldsWithoutCard := findPossibleMelds handWithoutCard
  let s2 := if meldsWithoutCard.length < meldsWithCard.length then s1 - 15 else s1
  let sameRank := hand.filter (fun c => c.rank == card.rank && c.id != card.id)
  let sameSuit := hand.filter (fun c => c.suit == card.suit && c.id != card.id)
  let s3 := if sameRank.length ≥ 1 then s2 - 5 else s2
  let consecutive := sameSuit.filter
    (fun c => c.value = card.value + 1 || card.value = c.value + 1)
  if consecutive.length ≥ 1 then s3 - 5 else s3

/-- `findBestDiscard(hand, melds)`: score every card, sort descending
(`(a, b) => b.score - a.score`), return the first. -/
def findBestDiscard (hand : List Card) (melds : List Meld) : Option Card :=
  match hand with
  | [] => none
  | _ =>
      let cardScores := hand.map (fun c => (c, discardScore hand melds c))
      let sorted := cardScores.insertionSort (fun a b => b.2 ≤ a.2)
      sorted.head?.map (fun top => top.1)

/-- The inner loop of `findAllRuns` from one start position: extend on
`value + 1` and emit every prefix of length 3+, skip equal values,
break on a gap. -/
def runFrom (suitCards : List Card) (run : List Card) : List (List Card) :=
  match suitCards with
  | [] => []
  | c :: rest =>
      let lastVal := (run.getLast?.map (fun x => x.value)).getD 0
      if c.value = lastVal + 1 then
        let run2 := run ++ [c]
        (if run2.length ≥ 3 then [run2] else []) ++ runFrom rest run2
      else if c.value ≠ lastVal then []
      else runFrom rest run
  termination_by suitCards.length

/-- `findAllRuns(cards)`: all consecutive sequences of 3+ cards of one
suit, from every start position of every sorted suit group. -/
def findAllRuns (cards : List Card) : List (List Card) :=
  (groupBySuit cards).flatMap (fun g =>
    let suitCards := sortByValue g
    (List.range suitCards.length).flatMap (fun start =>
      match suitCards.drop start with
      | [] => []
      | c :: rest => runFrom rest [c]))

/-- `findAllSets(cards)`: per rank group of 3+ cards, the first three
and (when present) the first four. -/
def findAllSets (cards : List Card) : List (List Card) :=
  (groupByRank cards).flatMap (fun g =>
    if g.length ≥ 3 then
      [g.take 3] ++ (if g.length ≥ 4 then [g.take 4] else [])
    else [])

structure ArrangeResult where
  success : Bool
  melds : List (List Card)
  unusedCards : List Card
  handCardsUsed : Nat := 0
deriving Repr, DecidableEq

/-- The result assembled at each return point of
`findBestMeldCombination`. -/
def arrangeResultOf (availableCards : List Card) (required : List String)
    (currentMelds : List (List Card)) : ArrangeResult :=
  let usedIds := currentMelds.flatMap (fun m => m.map (fun c => c.id))
  { success := required.all (fun id => usedIds.contains id)
    melds := currentMelds
    unusedCards := availableCards.filter (fun c => !usedIds.contains c.id)
    handCardsUsed :=
      ((currentMelds.flatMap (fun m => m)).filter
        (fun c => !required.contains c.id)).length }

/-- `findBestMeldCombination` with its `depth > 10` cut-off rewritten
as structural fuel (`fuel = 11 - depth`): try each candidate meld
disjoint from the cards already used, recurse, and keep the best result
(covering all required cards first, then using more hand cards). -/
def fbmcGo (availableCards : List Card) (possibleMelds : List (List Card))
    (required : List String) : Nat → List (List Card) → ArrangeResult
  | 0, currentMelds => arrangeResultOf availableCards required currentMelds
  | fuel + 1, currentMelds =>
      let usedIds := currentMelds.flatMap (fun m => m.map (fun c => c.id))
      let validMelds := possibleMelds.filter (fun meld =>
        meld.all (fun card => !usedIds.contains card.id))
      if validMelds.isEmpty then
        arrangeResultOf availableCards required currentMelds
      else
        validMelds.foldl (fun bestResult meld =>
          let result := fbmcGo availableCards possibleMelds required fuel
            (currentMelds ++ [meld])
          if result.success &&
              (!bestResult.success || bestResult.handCardsUsed < result.handCardsUsed) then
            result
          else if !bestResult.success && result.success then result
          else bestResult)
          (arrangeResultOf availableCards required currentMelds)

/-- `findBestMeldCombination(availableCards, possibleMelds,
requiredCardIds, [], 0)` as called from `findValidArrangement`. -/
def findBestMeldCombination (availableCards : List Card)
    (possibleMelds : List (List Card)) (required : List String) :
    ArrangeResult :=
  fbmcGo availableCards possibleMelds required 11 []

/-- `findValidArrangement(cards, requiredCardIds)`. -/
def findValidArrangement (cards : List Card) (required : List String) :
    ArrangeResult :=
  let allRuns := findAllRuns cards
  let allSets := findAllSets cards
  let allMelds := allRuns ++ allSets
  if allMelds.isEmpty then
    { success := false, melds := [], unusedCards := cards }
  else findBestMeldCombination cards allMelds required

structure RearrangeAttempt where
  success : Bool
  newMelds : List Meld := []
  cardsFromHand : List String := []
  remainingHand : List Card := []
deriving Repr, DecidableEq

/-- `tryBotRearrangement(tableCards, hand, requiredTableCardIds)`;
`freshIds i` stands for the generated `meld_bot_${Date.now()}_${i}`. -/
def tryBotRearrangement (tableCards hand : List Card)
    (requiredTableCardIds : List String) (freshIds : Nat → String) :
    RearrangeAttempt :=
  let allCards := tableCards ++ hand
  let result := findValidArrangement allCards requiredTableCardIds
  if !result.success then { success := false }
  else
    let usedIds := result.melds.flatMap (fun m => m.map (fun c => c.id))
    if !(requiredTableCardIds.all (fun id => usedIds.contains id)) then
      { success := false }
    else
      let handCardIds := hand.map (fun c => c.id)
      let cardsFromHand := (result.melds.flatMap (fun m => m)).filter
        (fun c => handCardIds.contains c.id)
      if cardsFromHand.isEmpty then { success := false }
      else
        let remainingHand := hand.filter
          (fun c => !cardsFromHand.any (fun hc => hc.id == c.id))
        if remainingHand.isEmpty then { success := false }
        else
          { success := true
            newMelds := result.melds.enum.map (fun im =>
              { id := freshIds im.1, cards := im.2, playerId := "bot" })
            cardsFromHand := cardsFromHand.map (fun c => c.id)
            remainingHand := remainingHand }

/-- The real cards of a hand of slots (the bot helpers dereference hand
entries; the source would throw on an `undefined` entry). -/
def slotCards (hand : List Slot) : List Card :=
  hand.filterMap (fun s => s)

/-- Scan one meld for the first hand card (by index) that can be
spliced onto it (strategy 2 inner loop). -/
def findAdditionInHand (meld : Meld) (hand : List Slot) (i : Nat) :
    Option (Nat × Card × String) :=
  match hand with
  | [] => none
  | sl :: rest =>
      match sl with
      | some card =>
          let r := canAddToMeld card meld
          match r.position, r.valid with
          | some pos, true => some (i, card, pos)
          | _, _ => findAdditionInHand meld rest (i + 1)
      | none => findAdditionInHand meld rest (i + 1)

/-- Scan the melds in order for the first possible addition
(strategy 2: outer loop over `game.melds`); returns the meld's index,
the meld, the hand index of the card, the card and the end to splice. -/
def findMeldAddition (melds : List Meld) (hand : List Slot) :
    Option (Nat × Meld × Nat × Card × String) :=
  match melds with
  | [] => none
  | m :: rest =>
      match findAdditionInHand m hand 0 with
      | some (i, card, pos) => some (0, m, i, card, pos)
      | none => (findMeldAddition rest hand).map (fun r => (r.1 + 1, r.2))

/-- Replace the `j`-th meld (the in-place mutation of the found meld). -/
def modifyMeldAt : List Meld → Nat → (Meld → Meld) → List Meld
  | [], _, _ => []
  | m :: rest, 0, f => f m :: rest
  | m :: rest, j + 1, f => m :: modifyMeldAt rest j f

/-- The `while (addedToMeld && hand.length > 1)` loop of strategy 2,
with fuel.  Each productive iteration removes one hand card, so fuel
`hand.length` reaches the loop's fixpoint. -/
def botAddLoop : Nat → List Meld → List Slot → List Meld × List Slot
  | 0, melds, hand => (melds, hand)
  | fuel + 1, melds, hand =>
      if hand.length > 1 then
        match findMeldAddition melds hand with
        | some (j, _, i, card, pos) =>
            let melds2 := modifyMeldAt melds j (fun m =>
              if pos = "start" then { m with cards := card :: m.cards }
              else { m with cards := m.cards ++ [card] })
            botAddLoop fuel melds2 (hand.eraseIdx i)
        | none => (melds, hand)
      else (melds, hand)

/-- Strategy 3: walk the candidate list computed once from the hand,
skipping a meld when playing it would leave no cards (a JS numeric
difference, so only an exact zero skips), re-checking validity, then
removing whatever ids are still present and pushing the meld. -/
def botPlayMeldsLoop (playerId : String) (freshIds : Nat → String) :
    List (List Card) → List Slot → List Meld → List Slot × List Meld
  | [], hand, melds => (hand, melds)
  | mc :: rest, hand, melds =>
      if ((hand.length : Int) - mc.length) = 0 then
        botPlayMeldsLoop playerId freshIds rest hand melds
      else if isValidMeld mc then
        let hand2 := mc.foldl (fun h c => removeCardById h c.id) hand
        botPlayMeldsLoop playerId freshIds rest hand2
          (melds ++ [{ cards := mc, playerId := playerId,
                       id := freshIds melds.length }])
      else botPlayMeldsLoop playerId freshIds rest hand melds

inductive BotOutcome where
  | err (msg : String)
  | won (w : Winner)
  | ok
deriving Repr, DecidableEq

/-- The draw phase of `playBotTurn` (smart choice between deck and
discard, with the reshuffle guard); `Sum.inr` is an early return. -/
def botDrawStep (sh : List Slot → List Slot) (s : GameState) (cp0 : Player) :
    GameState ⊕ (GameState × Option BotOutcome) :=
  if s.phase = "draw" then
    let discardTop : Slot := (s.discardPile.getLast?).getD none
    let shouldTakeDiscard := discardTop.isSome &&
      isDiscardCardUseful discardTop (slotCards cp0.hand) s.melds
    if shouldTakeDiscard && s.discardPile.length > 0 then
      let drawnCard := (s.discardPile.getLast?).getD none
      let st := { s with discardPile := s.discardPile.dropLast }
      let st := setHand st s.currentTurn (cp0.hand ++ [drawnCard])
      Sum.inl { st with phase := "play" }
    else
      if s.deck.length = 0 then
        if s.discardPile.length ≤ 1 then
          Sum.inr (s, some (BotOutcome.err "No cards left"))
        else
          let topCard := (s.discardPile.getLast?).getD none
          let st := { s with deck := sh s.discardPile.dropLast
                             discardPile := [topCard] }
          let shifted := jsShift st.deck
          let st := { st with deck := shifted.2 }
          let st := setHand st s.currentTurn (cp0.hand ++ [shifted.1])
          Sum.inl { st with phase := "play" }
      else
        let shifted := jsShift s.deck
        let st := { s with deck := shifted.2 }
        let st := setHand st s.currentTurn (cp0.hand ++ [shifted.1])
        Sum.inl { st with phase := "play" }
  else Sum.inl s

/-- Strategy 1 of `playBotTurn`: full table rearrangement. -/
def botStrategy1 (freshIds : Nat → String) (s1 : GameState) (cp1 : Player) :
    GameState :=
  if s1.melds.length > 0 && cp1.hand.length > 1 then
    let tableCards := s1.melds.flatMap (fun m => m.cards)
    let requiredIds := tableCards.map (fun c => c.id)
    let r := tryBotRearrangement tableCards (slotCards cp1.hand)
      requiredIds freshIds
    if r.success && r.cardsFromHand.length > 0 then
      let st := { s1 with melds := r.newMelds }
      setHand st s1.currentTurn
        (r.cardsFromHand.foldl (fun h id => removeCardById h id) cp1.hand)
    else s1
  else s1

/-- Strategy 2 of `playBotTurn`: repeated single-card additions. -/
def botStrategy2 (s2 : GameState) (cp2 : Player) : GameState :=
  let added := botAddLoop cp2.hand.length s2.melds cp2.hand
  setHand { s2 with melds := added.1 } s2.currentTurn added.2

/-- Strategy 3 of `playBotTurn`: new melds from the hand. -/
def botStrategy3 (freshIds : Nat → String) (s3 : GameState) (cp3 : Player) :
    GameState :=
  let possibleMelds := findPossibleMelds (slotCards cp3.hand)
  let played := botPlayMeldsLoop cp3.id freshIds possibleMelds cp3.hand
    s3.melds
  setHand { s3 with melds := played.2 } s3.currentTurn played.1

/-- The heuristic discard of `playBotTurn`. -/
def botDiscardStep (s4 : GameState) (cp4 : Player) : GameState :=
  if cp4.hand.length > 0 then
    match findBestDiscard (slotCards cp4.hand) s4.melds with
    | some discardCard =>
        match findCardIdx cp4.hand discardCard.id with
        | some idx =>
            let card := (cp4.hand[idx]?).getD none
            let st := setHand s4 s4.currentTurn (cp4.hand.eraseIdx idx)
            { st with discardPile := st.discardPile ++ [card] }
        | none => s4
    | none => s4
  else s4

/-- The play-phase body of `playBotTurn`: the three strategies, the
win checks, the discard and the turn advance, in source order. -/
def botPlayPhase (freshIds : Nat → String) (s1 : GameState) :
    GameState × Option BotOutcome :=
  match s1.players[s1.currentTurn]? with
  | none => (s1, some BotOutcome.ok)
  | some cp1 =>
    let s2 := botStrategy1 freshIds s1 cp1
    match s2.players[s2.currentTurn]? with
    | none => (s2, some BotOutcome.ok)
    | some cp2 =>
      let s3 := botStrategy2 s2 cp2
      match s3.players[s3.currentTurn]? with
      | none => (s3, some BotOutcome.ok)
      | some cp3 =>
        let s4 := botStrategy3 freshIds s3 cp3
        match s4.players[s4.currentTurn]? with
        | none => (s4, some BotOutcome.ok)
        | some cp4 =>
          if checkWin cp4.hand then
            let w := mkWinner s4 cp4
            ({ s4 with winner := some w }, some (BotOutcome.won w))
          else
            let s5 := botDiscardStep s4 cp4
            match s5.players[s5.currentTurn]? with
            | none => (s5, some BotOutcome.ok)
            | some cp5 =>
              if cp4.hand.length > 0 && checkWin cp5.hand then
                let w := mkWinner s5 cp5
                ({ s5 with winner := some w }, some (BotOutcome.won w))
              else
                ({ s5 with
                    currentTurn := (s5.currentTurn + 1) % s5.players.length
                    phase := "draw" }, some BotOutcome.ok)

/-- `playBotTurn(lobbyCode)`: returns `none` where the source returns
`null`.  The draw choice, the three meld strategies, the two win
checks, the heuristic discard and the turn advance appear in source
order through `botDrawStep` and `botPlayPhase`. -/
def playBotTurn (sh : List Slot → List Slot) (freshIds : Nat → String)
    (s : GameState) : GameState × Option BotOutcome :=
  if s.winner.isSome then (s, none)
  else
    match s.players[s.currentTurn]? with
    | none => (s, none)
    | some cp0 =>
      if !cp0.isTestPlayer then (s, none)
      else
        match botDrawStep sh s cp0 with
        | Sum.inr out => out
        | Sum.inl s1 =>
          if s1.phase = "play" then botPlayPhase freshIds s1
          else (s1, some BotOutcome.ok)

/-! ## Concrete fixtures used by witnesses and counterexamples -/

def mkCard (deckIndex : Nat) (rank suit : String) : Card :=
  { id := s!"{deckIndex}_{rank}_{suit}", rank := rank, suit := suit
    value := getRankValue rank, deckIndex := deckIndex }

def cH4 : Card := mkCard 0 "4" "hearts"
def cH5 : Card := mkCard 0 "5" "hearts"
def cH6 : Card := mkCard 0 "6" "hearts"
def cD5 : Card := mkCard 0 "5" "diamonds"
def cD2 : Card := mkCard 0 "2" "diamonds"
def cD3 : Card := mkCard 0 "3" "diamonds"
def cD4 : Card := mkCard 0 "4" "diamonds"
def cSQ : Card := mkCard 0 "Q" "spades"
def cSK : Card := mkCard 0 "K" "spades"
def cSA : Card := mkCard 0 "A" "spades"
def cS2 : Card := mkCard 0 "2" "spades"
def cS3 : Card := mkCard 0 "3" "spades"
def cS10 : Card := mkCard 0 "10" "spades"
def cSJ : Card := mkCard 0 "J" "spades"
def cHK : Card := mkCard 0 "K" "hearts"
def cDK : Card := mkCard 0 "K" "diamonds"
def cCK : Card := mkCard 0 "K" "clubs"
def cC7 : Card := mkCard 0 "7" "clubs"

/-- A small mid-game state: two players, player 0 to act in the play
phase, one meld on the table. -/
def sampleState : GameState :=
  { lobbyCode := "L"
    players :=
      [{ id := "p0", name := "Alice", hand := [some cH4, some cH5, some cC7]
         connected := true, isTestPlayer := false },
       { id := "p1", name := "Bob", hand := [some cD2, some cD3]
         connected := true, isTestPlayer := false }]
    deck := [some cS10]
    discardPile := [some cSJ]
    melds := [{ cards := [cSQ, cSK, cSA], playerId := "p1", id := "m1" }]
    currentTurn := 0
    phase := "play"
    winner := none
    settings := { numDecks := 1 } }

/-! ## C6: the missing-card check of `validateRearrangement` comes first -/

/-- **C6**: `validateRearrangement` rejects, with the
"Cannot remove cards from the table back to hand" failure, every
proposed table state that omits a card id present on the current table,
regardless of the player hand and of whether the remaining proposed
melds are individually valid; the missing-card check precedes every
other rule, so the result is exactly this failure. -/
theorem C6_missing_table_card_rejected_first
    (currentMelds proposedMelds : List Meld) (playerHand : List Slot)
    (c : Card) (hc : c ∈ currentMelds.flatMap (fun m => m.cards))
    (hnot : c.id ∉ (proposedMelds.flatMap (fun m => m.cards)).map
      (fun d => d.id)) :
    validateRearrangement currentMelds proposedMelds playerHand =
      { valid := false
        error := some "Cannot remove cards from the table back to hand" } := by
  unfold validateRearrangement
  have hany : ((currentMelds.flatMap (fun m => m.cards)).map
        (fun c => c.id)).any
      (fun id => !((proposedMelds.flatMap (fun m => m.cards)).map
        (fun c => c.id)).contains id) = true := by
    simp only [List.any_eq_true]
    exact ⟨c.id, List.mem_map_of_mem _ hc, by simp [hnot]⟩
  simp only [hany, if_true]

/-- Witness for C6: dropping the queen of spades from the table meld
`[Q♠, K♠, A♠]` is rejected with the missing-card error even though the
only remaining proposed meld `[K♠, A♠, 2♠]` is itself the (invalid)
wrapped run — the missing-card rule fires first. -/
theorem C6_witness :
    validateRearrangement
      [{ cards := [cSQ, cSK, cSA], playerId := "p1", id := "m1" }]
      [{ cards := [cSK, cSA, cS2], playerId := "p1", id := "m1" }]
      [some cS2] =
      { valid := false
        error := some "Cannot remove cards from the table back to hand" } :=
  C6_missing_table_card_rejected_first _ _ _ cSQ (by decide) (by decide)

/-! ## C7: failing operations leave the state untouched -/

/-- **C7**: error atomicity — for each of the six player operations, in
every state and for all arguments, a failure result leaves the match
state exactly as it was: every failing branch of the source returns
before any mutation. -/
theorem C7_error_atomicity (sh : List Slot → List Slot) (s : GameState)
    (pid src cardId meldId position freshId : String)
    (cardIds cardsFromHand : List String) (proposedMelds : List Meld) :
    ((drawCard sh s pid src).2.success = false →
      (drawCard sh s pid src).1 = s) ∧
    ((playMeld s pid cardIds freshId).2.success = false →
      (playMeld s pid cardIds freshId).1 = s) ∧
    ((addToMeld s pid cardId meldId position).2.success = false →
      (addToMeld s pid cardId meldId position).1 = s) ∧
    ((rearrangeTable s pid proposedMelds cardsFromHand).2.success = false →
      (rearrangeTable s pid proposedMelds cardsFromHand).1 = s) ∧
    ((discard s pid cardId).2.success = false → (discard s pid cardId).1 = s) ∧
    ((endTurn s pid).2.success = false → (endTurn s pid).1 = s) := by
  refine ⟨?_, ?_, ?_, ?_, ?_, ?_⟩
  · unfold drawCard
    repeat' split
    all_goals simp
    all_goals repeat' split
    all_goals simp
  · unfold playMeld
    repeat' split
    all_goals simp
    all_goals repeat' split
    all_goals simp
  · unfold addToMeld
    repeat' split
    all_goals simp
    all_goals repeat' split
    all_goals simp
  · unfold rearrangeTable
    repeat' split
    all_goals simp
    all_goals repeat' split
    all_goals simp
  · unfold discard
    repeat' split
    all_goals simp
    all_goals repeat' split
    all_goals simp
  · unfold endTurn
    repeat' split
    all_goals simp
    all_goals repeat' split
    all_goals simp

/-- Witness for C7: six concrete failing calls on `sampleState` (wrong
phase, wrong turn, unknown card, table card dropped, unknown card,
non-empty hand), each leaving the state unchanged. -/
theorem C7_witness :
    (drawCard id sampleState "p0" "deck").1 = sampleState ∧
    (playMeld sampleState "p1" [] "mX").1 = sampleState ∧
    (addToMeld sampleState "p0" "junk" "m1" "end").1 = sampleState ∧
    (rearrangeTable sampleState "p0" [] []).1 = sampleState ∧
    (discard sampleState "p0" "junk").1 = sampleState ∧
    (endTurn sampleState "p0").1 = sampleState := by
  refine ⟨?_, ?_, ?_, ?_, ?_, ?_⟩
  · exact (C7_error_atomicity id sampleState "p0" "deck" "junk" "m1" "end"
      "mX" [] [] []).1 (by decide)
  · exact (C7_error_atomicity id sampleState "p1" "deck" "junk" "m1" "end"
      "mX" [] [] []).2.1 (by decide)
  · exact (C7_error_atomicity id sampleState "p0" "deck" "junk" "m1" "end"
      "mX" [] [] []).2.2.1 (by decide)
  · exact (C7_error_atomicity id sampleState "p0" "deck" "junk" "m1" "end"
      "mX" [] [] []).2.2.2.1 (by decide)
  · exact (C7_error_atomicity id sampleState "p0" "deck" "junk" "m1" "end"
      "mX" [] [] []).2.2.2.2.1 (by decide)
  · exact (C7_error_atomicity id sampleState "p0" "deck" "junk" "m1" "end"
      "mX" [] [] []).2.2.2.2.2 (by decide)

/-! ## C8: `dealCards` never fails -/

lemma dealHands_spec (per : Nat) :
    ∀ (n : Nat) (deck : List Slot),
      (dealHands deck per n).1 =
        (List.range n).map (fun i => (deck.drop (i * per)).take per) ∧
      (dealHands deck per n).2 = deck.drop (n * per) := by
  intro n
  induction n with
  | zero => intro deck; simp [dealHands]
  | succ k ih =>
      intro deck
      obtain ⟨ih1, ih2⟩ := ih (deck.drop per)
      constructor
      · simp only [dealHands, ih1, List.range_succ_eq_map, List.map_cons,
          List.map_map]
        congr 1
        · simp
        · apply List.map_congr_left
          intro i _
          simp only [Function.comp_apply, List.drop_drop]
          congr 2
          rw [Nat.succ_eq_add_one]
          ring
      · simp only [dealHands, ih2, List.drop_drop]
        congr 1
        ring

/-- Counterexample to **C8**: dealing 2 cards each to 2 players from a
3-card pool (which is smaller than 2·2+1 = 5) does not fail at all —
the second player receives a single card and the discard pile receives
an `undefined` entry. -/
theorem C8_counterexample :
    dealCards [some cH4, some cH5, some cH6] 2 2 =
      { hands := [[some cH4, some cH5], [some cH6]]
        deck := []
        discardPile := [none] } := by decide

/-- **C8 (amended)**: `dealCards` never fails.  When the pool holds at
least `numPlayers * perPlayer + 1` cards it removes exactly `perPlayer`
cards per player in player order from the front of the pool and then
moves exactly one more card to the discard pile; with a smaller pool it
still returns normally (later hands short or empty, `undefined`
discard entry) instead of raising `InsufficientCardsError`. -/
theorem C8_deal_spec (deck : List Slot) (numPlayers perPlayer : Nat)
    (h : numPlayers * perPlayer + 1 ≤ deck.length) :
    (dealCards deck numPlayers perPlayer).hands =
      (List.range numPlayers).map
        (fun i => (deck.drop (i * perPlayer)).take perPlayer) ∧
    (dealCards deck numPlayers perPlayer).discardPile =
      [deck.getD (numPlayers * perPlayer) none] ∧
    (dealCards deck numPlayers perPlayer).deck =
      deck.drop (numPlayers * perPlayer + 1) := by
  obtain ⟨h1, h2⟩ := dealHands_spec perPlayer numPlayers deck
  have hlt : numPlayers * perPlayer < deck.length := by omega
  have hd : (dealHands deck perPlayer numPlayers).2 =
      deck[numPlayers * perPlayer] :: deck.drop (numPlayers * perPlayer + 1) := by
    rw [h2]
    exact List.drop_eq_getElem_cons hlt
  refine ⟨?_, ?_, ?_⟩
  · simpa [dealCards] using h1
  · simp only [dealCards]
    rw [hd]
    simp only [jsShift]
    rw [List.getD_eq_getElem _ _ hlt]
  · simp only [dealCards]
    rw [hd]
    rfl

/-- Witness for C8: a 5-card pool for 2 players × 2 cards is enough;
the amended description evaluates as stated. -/
theorem C8_witness :
    2 * 2 + 1 ≤ ([some cH4, some cH5, some cH6, some cD2, some cD3] :
      List Slot).length ∧
    (dealCards [some cH4, some cH5, some cH6, some cD2, some cD3] 2 2).hands =
      (List.range 2).map
        (fun i => (([some cH4, some cH5, some cH6, some cD2, some cD3] :
          List Slot).drop (i * 2)).take 2) :=
  ⟨by decide,
    (C8_deal_spec [some cH4, some cH5, some cH6, some cD2, some cD3] 2 2
      (by decide)).1⟩

/-! ## C10: deck draw with both piles (effectively) empty -/

lemma updateHand_getElem? :
    ∀ (l : List Player) (i j : Nat) (h : List Slot),
      (updateHand l i h)[j]? =
        (l[j]?).map (fun p => if j = i then { p with hand := h } else p) := by
  intro l
  induction l with
  | nil => intro i j h; simp [updateHand]
  | cons p rest ih =>
      intro i j h
      cases i with
      | zero =>
          cases j with
          | zero => simp [updateHand]
          | succ j => simp [updateHand]
      | succ i =>
          cases j with
          | zero => simp [updateHand]
          | succ j => simp [updateHand, ih]

lemma setHand_players_getElem (s : GameState) (i j : Nat) (h : List Slot) :
    (setHand s i h).players[j]? =
      (s.players[j]?).map
        (fun p => if j = i then { p with hand := h } else p) := by
  simp [setHand, updateHand_getElem?]

lemma setHand_deck (s : GameState) (i : Nat) (h : List Slot) :
    (setHand s i h).deck = s.deck := rfl

/-- **C10**: in any state whose draw pile is empty and whose discard
pile holds at most one card, a deck draw by the current-turn player in
the draw phase still returns success (never an empty-pile failure), the
reshuffle leaves the draw pile empty, and the acting player's hand
receives an `undefined` entry instead of a card. -/
theorem C10_empty_deck_draw_succeeds_with_undefined
    (sh : List Slot → List Slot) (s : GameState) (pid : String) (i : Nat)
    (p : Player) (hsh : sh [] = [])
    (hfind : findPlayerIdx s pid = some i) (hturn : s.currentTurn = i)
    (hphase : s.phase = "draw") (hdeck : s.deck = [])
    (hdisc : s.discardPile.length ≤ 1) (hp : s.players[i]? = some p) :
    (drawCard sh s pid "deck").2.success = true ∧
    (drawCard sh s pid "deck").2.card = none ∧
    (drawCard sh s pid "deck").1.deck = [] ∧
    ((drawCard sh s pid "deck").1.players[i]?).map (fun q => q.hand) =
      some (p.hand ++ [none]) := by
  have hne : ¬ s.currentTurn ≠ i := by simp [hturn]
  have hph : ¬ s.phase ≠ "draw" := by simp [hphase]
  rcases hds : s.discardPile with _ | ⟨x, _ | ⟨y, ys⟩⟩
  · simp only [drawCard, hfind, hne, hph, hds, hdeck, List.getLast?_nil,
      jsShift, hsh, List.length_nil, if_true, ite_true, ite_false, reduceIte]
    simp only [hp]
    refine ⟨by trivial, by trivial, by trivial, ?_⟩
    rw [setHand_players_getElem]
    dsimp only
    rw [hp]
    simp
  · simp only [drawCard, hfind, hne, hph, hds, hdeck,
      List.getLast?_singleton, List.dropLast_single, jsShift, hsh,
      List.length_cons, List.length_nil, if_true, ite_true, ite_false,
      reduceIte]
    simp only [hp]
    refine ⟨by trivial, by trivial, by trivial, ?_⟩
    rw [setHand_players_getElem]
    dsimp only
    rw [hp]
    simp
  · rw [hds] at hdisc
    simp at hdisc

/-- Witness for C10: a one-player state with an empty deck and a
single discard; the deck draw succeeds and appends `undefined`. -/
def c10State : GameState :=
  { lobbyCode := "L"
    players := [{ id := "p0", name := "Alice", hand := [some cH4]
                  connected := true, isTestPlayer := false }]
    deck := []
    discardPile := [some cSJ]
    melds := []
    currentTurn := 0
    phase := "draw"
    winner := none
    settings := { numDecks := 1 } }

theorem C10_witness :
    (drawCard id c10State "p0" "deck").2.success = true ∧
    (drawCard id c10State "p0" "deck").2.card = none ∧
    (drawCard id c10State "p0" "deck").1.deck = [] ∧
    ((drawCard id c10State "p0" "deck").1.players[0]?).map
      (fun q => q.hand) = some ([some cH4] ++ [none]) :=
  C10_empty_deck_draw_succeeds_with_undefined id c10State "p0" 0
    { id := "p0", name := "Alice", hand := [some cH4]
      connected := true, isTestPlayer := false }
    rfl (by decide) rfl rfl rfl (by decide) (by decide)

/-! ## Gating helper lemmas (shared by the turn/phase claims) -/

lemma drawCard_not_your_turn (sh : List Slot → List Slot) (s : GameState)
    (pid src : String) (i : Nat) (hfind : findPlayerIdx s pid = some i)
    (h : s.currentTurn ≠ i) :
    drawCard sh s pid src =
      (s, { success := false, error := some "Not your turn" }) := by
  simp [drawCard, hfind, h]

lemma playMeld_not_your_turn (s : GameState) (pid freshId : String)
    (cardIds : List String) (i : Nat) (hfind : findPlayerIdx s pid = some i)
    (h : s.currentTurn ≠ i) :
    playMeld s pid cardIds freshId =
      (s, { success := false, error := some "Not your turn" }) := by
  simp [playMeld, hfind, h]

lemma addToMeld_not_your_turn (s : GameState)
    (pid cardId meldId position : String) (i : Nat)
    (hfind : findPlayerIdx s pid = some i) (h : s.currentTurn ≠ i) :
    addToMeld s pid cardId meldId position =
      (s, { success := false, error := some "Not your turn" }) := by
  simp [addToMeld, hfind, h]

lemma rearrangeTable_not_your_turn (s : GameState) (pid : String)
    (proposedMelds : List Meld) (cardsFromHand : List String) (i : Nat)
    (hfind : findPlayerIdx s pid = some i) (h : s.currentTurn ≠ i) :
    rearrangeTable s pid proposedMelds cardsFromHand =
      (s, { success := false, error := some "Not your turn" }) := by
  simp [rearrangeTable, hfind, h]

lemma discard_not_your_turn (s : GameState) (pid cardId : String) (i : Nat)
    (hfind : findPlayerIdx s pid = some i) (h : s.currentTurn ≠ i) :
    discard s pid cardId =
      (s, { success := false, error := some "Not your turn" }) := by
  simp [discard, hfind, h]

lemma drawCard_wrong_phase (sh : List Slot → List Slot) (s : GameState)
    (pid src : String) (i : Nat) (hfind : findPlayerIdx s pid = some i)
    (hturn : s.currentTurn = i) (hphase : s.phase ≠ "draw") :
    drawCard sh s pid src =
      (s, { success := false, error := some "Already drew a card this turn" }) := by
  simp [drawCard, hfind, hturn, hphase]

lemma playMeld_wrong_phase (s : GameState) (pid freshId : String)
    (cardIds : List String) (i : Nat) (hfind : findPlayerIdx s pid = some i)
    (hturn : s.currentTurn = i) (hphase : s.phase ≠ "play") :
    playMeld s pid cardIds freshId =
      (s, { success := false, error := some "Draw a card first" }) := by
  simp [playMeld, hfind, hturn, hphase]

lemma addToMeld_wrong_phase (s : GameState)
    (pid cardId meldId position : String) (i : Nat)
    (hfind : findPlayerIdx s pid = some i) (hturn : s.currentTurn = i)
    (hphase : s.phase ≠ "play") :
    addToMeld s pid cardId meldId position =
      (s, { success := false, error := some "Draw a card first" }) := by
  simp [addToMeld, hfind, hturn, hphase]

lemma rearrangeTable_wrong_phase (s : GameState) (pid : String)
    (proposedMelds : List Meld) (cardsFromHand : List String) (i : Nat)
    (hfind : findPlayerIdx s pid = some i) (hturn : s.currentTurn = i)
    (hphase : s.phase ≠ "play") :
    rearrangeTable s pid proposedMelds cardsFromHand =
      (s, { success := false, error := some "Draw a card first" }) := by
  simp [rearrangeTable, hfind, hturn, hphase]

lemma discard_wrong_phase (s : GameState) (pid cardId : String) (i : Nat)
    (hfind : findPlayerIdx s pid = some i) (hturn : s.currentTurn = i)
    (hphase : s.phase ≠ "play") :
    discard s pid cardId =
      (s, { success := false, error := some "Draw a card first" }) := by
  simp [discard, hfind, hturn, hphase]

lemma findCardInHand_nil_lookup (ids : List String) :
    ((ids.map (fun id => findCardInHand [] id)).filterMap (fun x => x)) = [] := by
  induction ids with
  | nil => rfl
  | cons a rest ih => simpa [findCardInHand] using ih

lemma playMeld_empty_hand (s : GameState) (pid freshId : String)
    (cardIds : List String) (i : Nat) (player : Player)
    (hfind : findPlayerIdx s pid = some i) (hturn : s.currentTurn = i)
    (hphase : s.phase = "play") (hp : s.players[i]? = some player)
    (hh : player.hand = []) :
    (playMeld s pid cardIds freshId).2.success = false ∧
    (playMeld s pid cardIds freshId).1 = s := by
  have hc := findCardInHand_nil_lookup cardIds
  rcases cardIds with _ | ⟨c, cs⟩
  · simp [playMeld, hfind, hturn, hphase, hp, hh, isValidMeld, isValidRun,
      isValidSet]
  · simp only [playMeld, hfind, hturn, hphase, hp, hh, hc]
    simp [findCardInHand]

lemma addToMeld_empty_hand (s : GameState)
    (pid cardId meldId position : String) (i : Nat) (player : Player)
    (hfind : findPlayerIdx s pid = some i) (hturn : s.currentTurn = i)
    (hphase : s.phase = "play") (hp : s.players[i]? = some player)
    (hh : player.hand = []) :
    (addToMeld s pid cardId meldId position).2.success = false ∧
    (addToMeld s pid cardId meldId position).1 = s := by
  simp [addToMeld, hfind, hturn, hphase, hp, hh, findCardInHand]

lemma discard_empty_hand (s : GameState) (pid cardId : String) (i : Nat)
    (player : Player) (hfind : findPlayerIdx s pid = some i)
    (hturn : s.currentTurn = i) (hphase : s.phase = "play")
    (hp : s.players[i]? = some player) (hh : player.hand = []) :
    (discard s pid cardId).2.success = false ∧ (discard s pid cardId).1 = s := by
  simp [discard, hfind, hturn, hphase, hp, hh, findCardIdx]

lemma rearrangeTable_empty_hand_no_cards (s : GameState) (pid : String)
    (proposedMelds : List Meld) (i : Nat) (player : Player)
    (hfind : findPlayerIdx s pid = some i) (hturn : s.currentTurn = i)
    (hphase : s.phase = "play") (hp : s.players[i]? = some player)
    (hh : player.hand = []) :
    (rearrangeTable s pid proposedMelds []).2.success = false ∧
    (rearrangeTable s pid proposedMelds []).1 = s := by
  simp only [rearrangeTable, hfind, hturn, hphase, hp, hh]
  repeat' split
  all_goals simp_all

/-! ## C4: what a recorded winner does and does not freeze -/

/-- A two-player position one discard away from a win. -/
def c4Pre : GameState :=
  { lobbyCode := "L"
    players :=
      [{ id := "p0", name := "Alice", hand := [some cC7]
         connected := true, isTestPlayer := false },
       { id := "p1", name := "Bob", hand := [some cD2]
         connected := true, isTestPlayer := false }]
    deck := []
    discardPile := [some cSJ]
    melds := []
    currentTurn := 0
    phase := "play"
    winner := none
    settings := { numDecks := 1 } }

/-- The state after player 0 wins by discarding their last card. -/
def c4Won : GameState := (discard c4Pre "p0" "0_7_clubs").1

/-- A seven-player single-deck match: neither the lobby nor `dealCards`
checks the pool size, so players 0-4 receive 10 cards each, player 5
receives the last 2, player 6 starts with an empty hand, and the
discard pile holds the `undefined` that `shift()` returned from the
exhausted pool. -/
def c4SevenInit : GameState :=
  initGame id "L7"
    [{ id := "p0", name := "P0", isTestPlayer := false },
     { id := "p1", name := "P1", isTestPlayer := false },
     { id := "p2", name := "P2", isTestPlayer := false },
     { id := "p3", name := "P3", isTestPlayer := false },
     { id := "p4", name := "P4", isTestPlayer := false },
     { id := "p5", name := "P5", isTestPlayer := false },
     { id := "p6", name := "P6", isTestPlayer := false }]
    { numDecks := 1 } 0

/-- A reachable post-win state in which the current player can still
act: `endTurn` by the empty-handed non-current player 6 records a
winner while the match is in the draw phase with player 0 to move. -/
def c4PostWin : GameState := (endTurn c4SevenInit "p6").1

/-- Counterexample to **C4**: after a winner is recorded not every
subsequent call fails — `endTurn` called by the winner returns success
again and `rearrangeTable` with a junk `cardsFromHand` entry also
returns success; moreover post-win states in which ordinary actions
succeed are reachable: in the short-dealt seven-player match,
`endTurn` by the empty-handed non-current player 6 records a winner
during the draw phase, after which `drawCard` by the current player
returns success and mutates the state. -/
theorem C4_counterexample :
    (discard c4Pre "p0" "0_7_clubs").2.success = true ∧
    c4Won.winner.isSome = true ∧
    (endTurn c4Won "p0").2.success = true ∧
    (rearrangeTable c4Won "p0" [] ["junk"]).2.success = true ∧
    c4SevenInit.winner = none ∧
    (endTurn c4SevenInit "p6").2.success = true ∧
    c4PostWin.winner.isSome = true ∧
    c4PostWin.phase = "draw" ∧
    (drawCard id c4PostWin "p0" "deck").2.success = true ∧
    (drawCard id c4PostWin "p0" "deck").1 ≠ c4PostWin := by decide

/-- The same position with the winner record replaced. -/
def withWinner (s : GameState) (w : Option Winner) : GameState :=
  { s with winner := w }

/-- Carry a pre-existing winner record through an operation that never
reads it: the result is unchanged, and the stored record survives
unless the call itself wrote a new one (visible as `result.winner`). -/
def carryWinner (w : Option Winner) (out : GameState × ActionResult) :
    GameState × ActionResult :=
  (if (out.2.winner).isSome then out.1 else { out.1 with winner := w }, out.2)

lemma drawCard_winner_indep (sh : List Slot → List Slot) (s : GameState)
    (w : Option Winner) (pid src : String) :
    drawCard sh (withWinner s w) pid src
      = carryWinner w (drawCard sh s pid src) := by
  simp only [drawCard, withWinner, carryWinner, findPlayerIdx, setHand]
  repeat' split
  all_goals first | rfl | simp_all

lemma playMeld_winner_indep (s : GameState) (w : Option Winner)
    (pid freshId : String) (cardIds : List String) :
    playMeld (withWinner s w) pid cardIds freshId
      = carryWinner w (playMeld s pid cardIds freshId) := by
  simp only [playMeld, withWinner, carryWinner, findPlayerIdx, setHand]
  repeat' split
  all_goals first | rfl | simp_all

lemma addToMeld_winner_indep (s : GameState) (w : Option Winner)
    (pid cardId meldId position : String) :
    addToMeld (withWinner s w) pid cardId meldId position
      = carryWinner w (addToMeld s pid cardId meldId position) := by
  simp only [addToMeld, withWinner, carryWinner, findPlayerIdx, setHand]
  repeat' split
  all_goals first | rfl | simp_all

lemma rearrangeTable_winner_indep (s : GameState) (w : Option Winner)
    (pid : String) (proposedMelds : List Meld)
    (cardsFromHand : List String) :
    rearrangeTable (withWinner s w) pid proposedMelds cardsFromHand
      = carryWinner w (rearrangeTable s pid proposedMelds cardsFromHand) := by
  simp only [rearrangeTable, withWinner, carryWinner, findPlayerIdx, setHand]
  repeat' split
  all_goals first | rfl | simp_all

lemma discard_winner_indep (s : GameState) (w : Option Winner)
    (pid cardId : String) :
    discard (withWinner s w) pid cardId
      = carryWinner w (discard s pid cardId) := by
  simp only [discard, withWinner, carryWinner, findPlayerIdx, setHand, mkWinner]
  repeat' split
  all_goals first | rfl | simp_all

lemma endTurn_winner_indep (s : GameState) (w : Option Winner)
    (pid : String) :
    endTurn (withWinner s w) pid = carryWinner w (endTurn s pid) := by
  simp only [endTurn, withWinner, carryWinner, findPlayerIdx, mkWinner]
  repeat' split
  all_goals first | rfl | simp_all

/-- **C4 (amended)**: no operation consults the winner record. Each of
`drawCard`, `playMeld`, `addToMeld`, `rearrangeTable`, `discard` and
`endTurn`, run on a state whose winner field has been replaced by an
arbitrary record `w`, returns the very same result and the very same
successor state as on the original state, except that the stored
record is carried through untouched unless the call itself wrote a new
one (a winning `discard` or a successful `endTurn`, which computes the
same fresh record either way). A recorded winner therefore freezes
nothing: whether a post-win call is accepted is decided solely by
turn, phase and hand contents, and the counterexample exhibits a
reachable post-win state in which `drawCard` succeeds and mutates the
state. -/
theorem C4_winner_field_never_consulted (sh : List Slot → List Slot)
    (s : GameState) (w : Option Winner)
    (pid src cardId meldId position freshId : String)
    (cardIds cardsFromHand : List String) (proposedMelds : List Meld) :
    drawCard sh (withWinner s w) pid src
      = carryWinner w (drawCard sh s pid src) ∧
    playMeld (withWinner s w) pid cardIds freshId
      = carryWinner w (playMeld s pid cardIds freshId) ∧
    addToMeld (withWinner s w) pid cardId meldId position
      = carryWinner w (addToMeld s pid cardId meldId position) ∧
    rearrangeTable (withWinner s w) pid proposedMelds cardsFromHand
      = carryWinner w (rearrangeTable s pid proposedMelds cardsFromHand) ∧
    discard (withWinner s w) pid cardId
      = carryWinner w (discard s pid cardId) ∧
    endTurn (withWinner s w) pid = carryWinner w (endTurn s pid) :=
  ⟨drawCard_winner_indep sh s w pid src,
   playMeld_winner_indep s w pid freshId cardIds,
   addToMeld_winner_indep s w pid cardId meldId position,
   rearrangeTable_winner_indep s w pid proposedMelds cardsFromHand,
   discard_winner_indep s w pid cardId,
   endTurn_winner_indep s w pid⟩

/-- Witness for C4 at the reachable post-win position: replacing the
winner record of `c4SevenInit` with the one `endTurn` stored changes
nothing about `drawCard`, which in particular still succeeds for the
current player. -/
theorem C4_witness :
    drawCard id (withWinner c4SevenInit c4PostWin.winner) "p0" "deck"
      = carryWinner c4PostWin.winner (drawCard id c4SevenInit "p0" "deck") ∧
    (drawCard id (withWinner c4SevenInit c4PostWin.winner) "p0" "deck").2.success
      = true := by
  refine ⟨(C4_winner_field_never_consulted id c4SevenInit c4PostWin.winner
    "p0" "deck" "x" "m" "end" "f" ["x"] [] []).1, ?_⟩
  decide

/-! ## C5: turn and phase gating -/

lemma findIdx?_updateHand :
    ∀ (l : List Player) (i : Nat) (h : List Slot) (pid : String),
      (updateHand l i h).findIdx? (fun p => p.id == pid) =
        l.findIdx? (fun p => p.id == pid) := by
  intro l
  induction l with
  | nil => intro i h pid; cases i <;> rfl
  | cons p rest ih =>
      intro i h pid
      cases i with
      | zero => simp [updateHand, List.findIdx?_cons]
      | succ n => simp [updateHand, List.findIdx?_cons, ih]

lemma findPlayerIdx_setHand (s : GameState) (i : Nat) (h : List Slot)
    (pid : String) :
    findPlayerIdx (setHand s i h) pid = findPlayerIdx s pid := by
  simp [findPlayerIdx, setHand, findIdx?_updateHand]

/-- A successful draw happened on the drawing player's turn in the
draw phase, and leaves the same player to act in the `play` phase. -/
lemma drawCard_success_shape (sh : List Slot → List Slot) (s : GameState)
    (pid src : String) (i : Nat) (hfind : findPlayerIdx s pid = some i)
    (h : (drawCard sh s pid src).2.success = true) :
    s.currentTurn = i ∧ s.phase = "draw" ∧
    (drawCard sh s pid src).1.phase = "play" ∧
    (drawCard sh s pid src).1.currentTurn = s.currentTurn ∧
    findPlayerIdx (drawCard sh s pid src).1 pid = some i := by
  have hfind2 : List.findIdx? (fun p => p.id == pid) s.players = some i := hfind
  unfold drawCard at *
  simp only [hfind] at h ⊢
  repeat' split at h
  all_goals try simp_all [findPlayerIdx_setHand, findPlayerIdx]
  all_goals
    repeat' split
  all_goals
    try simp_all [setHand, findIdx?_updateHand]

/-- A two-player state whose non-current second player has an empty
hand (reachable through the junk-`cardsFromHand` hole of
`rearrangeTable`). -/
def c5State : GameState :=
  { lobbyCode := "L"
    players :=
      [{ id := "p0", name := "Alice", hand := [some cH4, some cH5]
         connected := true, isTestPlayer := false },
       { id := "p1", name := "Bob", hand := []
         connected := true, isTestPlayer := false }]
    deck := [some cS10]
    discardPile := [some cSJ]
    melds := []
    currentTurn := 0
    phase := "draw"
    winner := none
    settings := { numDecks := 1 } }

/-- Counterexample to **C5**: `endTurn` performs no turn or phase
validation.  Called by the non-current player it does not fail with
`NotYourTurn`: with a non-empty hand it fails with the go-out message,
and with an empty hand it even succeeds (recording a win) although it
is not that player's turn and the match is in the draw phase. -/
theorem C5_counterexample :
    (endTurn sampleState "p1").2.error =
      some "You must discard a card or go out with no cards" ∧
    sampleState.currentTurn = 0 ∧ c5State.currentTurn = 0 ∧
    c5State.phase = "draw" ∧
    (endTurn c5State "p1").2.success = true := by decide

/-- **C5 (amended)**: `drawCard`, `playMeld`, `addToMeld`,
`rearrangeTable` and `discard` each validate that the caller is the
current-turn player and that the match is in the required phase,
failing with the `Not your turn` / wrong-phase errors and leaving the
state unchanged; a second `drawCard` in the same turn fails with the
wrong-phase error `Already drew a card this turn`; `endTurn`, however,
validates neither turn nor phase — an empty-handed caller succeeds
regardless of whose turn it is. -/
theorem C5_turn_and_phase_gating (sh sh2 : List Slot → List Slot)
    (s : GameState) (pid src src2 cardId meldId position freshId : String)
    (cardIds cardsFromHand : List String) (proposedMelds : List Meld)
    (i : Nat) (hfind : findPlayerIdx s pid = some i) :
    (s.currentTurn ≠ i →
      drawCard sh s pid src =
        (s, { success := false, error := some "Not your turn" }) ∧
      playMeld s pid cardIds freshId =
        (s, { success := false, error := some "Not your turn" }) ∧
      addToMeld s pid cardId meldId position =
        (s, { success := false, error := some "Not your turn" }) ∧
      rearrangeTable s pid proposedMelds cardsFromHand =
        (s, { success := false, error := some "Not your turn" }) ∧
      discard s pid cardId =
        (s, { success := false, error := some "Not your turn" })) ∧
    (s.currentTurn = i → s.phase ≠ "draw" →
      drawCard sh s pid src =
        (s, { success := false,
              error := some "Already drew a card this turn" })) ∧
    (s.currentTurn = i → s.phase ≠ "play" →
      playMeld s pid cardIds freshId =
        (s, { success := false, error := some "Draw a card first" }) ∧
      addToMeld s pid cardId meldId position =
        (s, { success := false, error := some "Draw a card first" }) ∧
      rearrangeTable s pid proposedMelds cardsFromHand =
        (s, { success := false, error := some "Draw a card first" }) ∧
      discard s pid cardId =
        (s, { success := false, error := some "Draw a card first" })) ∧
    ((drawCard sh s pid src).2.success = true →
      (drawCard sh2 (drawCard sh s pid src).1 pid src2).2.error =
        some "Already drew a card this turn") ∧
    (∀ player, s.players[i]? = some player → player.hand = [] →
      (endTurn s pid).2.success = true) := by
  refine ⟨?_, ?_, ?_, ?_, ?_⟩
  · intro hi
    exact ⟨drawCard_not_your_turn sh s pid src i hfind hi,
      playMeld_not_your_turn s pid freshId cardIds i hfind hi,
      addToMeld_not_your_turn s pid cardId meldId position i hfind hi,
      rearrangeTable_not_your_turn s pid proposedMelds cardsFromHand i hfind hi,
      discard_not_your_turn s pid cardId i hfind hi⟩
  · intro hi hp
    exact drawCard_wrong_phase sh s pid src i hfind hi hp
  · intro hi hp
    exact ⟨playMeld_wrong_phase s pid freshId cardIds i hfind hi hp,
      addToMeld_wrong_phase s pid cardId meldId position i hfind hi hp,
      rearrangeTable_wrong_phase s pid proposedMelds cardsFromHand i hfind hi hp,
      discard_wrong_phase s pid cardId i hfind hi hp⟩
  · intro hsucc
    obtain ⟨hturn, _, hphase1, hturn1, hfind1⟩ :=
      drawCard_success_shape sh s pid src i hfind hsucc
    have hnp : (drawCard sh s pid src).1.phase ≠ "draw" := by
      rw [hphase1]; decide
    rw [drawCard_wrong_phase sh2 (drawCard sh s pid src).1 pid src2 i hfind1
      (by rw [hturn1, hturn]) hnp]
  · intro player hpl hh
    simp [endTurn, hfind, hpl, hh, checkWin]

/-- Witness for C5: on `sampleState` (player 0 to act, play phase), a
draw by player 1 fails with `Not your turn`, a draw by player 0 fails
with the wrong-phase error, and a meld by player 0 in `c5State`
(draw phase) fails with `Draw a card first`. -/
theorem C5_witness :
    (drawCard id sampleState "p1" "deck").2.error = some "Not your turn" ∧
    (drawCard id sampleState "p0" "deck").2.error =
      some "Already drew a card this turn" ∧
    (playMeld c5State "p0" [] "f").2.error = some "Draw a card first" ∧
    (endTurn c5State "p1").2.success = true := by
  have h1 := C5_turn_and_phase_gating id id sampleState "p1" "deck" "deck"
    "x" "m" "end" "f" [] [] [] 1 (by decide)
  have h0 := C5_turn_and_phase_gating id id sampleState "p0" "deck" "deck"
    "x" "m" "end" "f" [] [] [] 0 (by decide)
  have h5 := C5_turn_and_phase_gating id id c5State "p0" "deck" "deck"
    "x" "m" "end" "f" [] [] [] 0 (by decide)
  have h5b := C5_turn_and_phase_gating id id c5State "p1" "deck" "deck"
    "x" "m" "end" "f" [] [] [] 1 (by decide)
  refine ⟨?_, ?_, ?_, ?_⟩
  · rw [(h1.1 (by decide)).1]
  · rw [h0.2.1 (by decide) (by decide)]
  · rw [(h5.2.2.1 (by decide) (by decide)).1]
  · exact h5b.2.2.2.2
      { id := "p1", name := "Bob", hand := []
        connected := true, isTestPlayer := false } (by decide) rfl

/-! ## C1: card conservation is violated by duplicate ids in `playMeld` -/

/-- Every card id on the board: hands, draw pile, discard pile and
table melds. -/
def allCardIds (s : GameState) : List String :=
  s.players.flatMap (fun p => slotIds p.hand) ++ slotIds s.deck ++
    slotIds s.discardPile ++
    s.melds.flatMap (fun m => m.cards.map (fun c => c.id))

/-- A fresh two-player one-deck match under the identity shuffle (one
of the permutations Fisher-Yates can produce). -/
def c1Init : GameState :=
  initGame (fun l => l) "L"
    [{ id := "p0", name := "Alice", isTestPlayer := false },
     { id := "p1", name := "Bob", isTestPlayer := false }]
    { numDecks := 1 } 0

def c1AfterDraw : GameState := (drawCard (fun l => l) c1Init "p0" "deck").1

def c1AfterMeld : GameState :=
  (playMeld c1AfterDraw "p0" ["0_5_hearts", "0_5_hearts", "0_5_hearts"]
    "mx").1

/-- **C1 is violated (code bug)**: from a freshly initialized match, a
deck draw followed by `playMeld` with the same card id listed three
times both return success, yet afterwards the multiset of card ids no
longer equals the initial pool: the five of hearts, present once after
initialization, now occurs three times (all in the new table meld,
having been removed from the hand only once).  `playMeld`'s
`cards.length !== cardIds.length` check does not detect duplicate ids
because `find` resolves each duplicate to the same hand card. -/
theorem C1_duplicate_ids_duplicate_a_card :
    (drawCard (fun l => l) c1Init "p0" "deck").2.success = true ∧
    (playMeld c1AfterDraw "p0" ["0_5_hearts", "0_5_hearts", "0_5_hearts"]
      "mx").2.success = true ∧
    (allCardIds c1Init).count "0_5_hearts" = 1 ∧
    (allCardIds c1AfterMeld).count "0_5_hearts" = 3 := by decide

/-! ## C9: the bot discard heuristic -/

instance : IsTotal (Card × Int) (fun p q => q.2 ≤ p.2) :=
  ⟨fun a b => le_total b.2 a.2⟩

instance : IsTrans (Card × Int) (fun p q => q.2 ≤ p.2) :=
  ⟨fun _ _ _ hab hbc => le_trans hbc hab⟩

lemma head_insertionSort_max (l : List (Card × Int)) (top : Card × Int)
    (rest : List (Card × Int))
    (h : l.insertionSort (fun p q => q.2 ≤ p.2) = top :: rest) :
    top ∈ l ∧ ∀ e ∈ l, e.2 ≤ top.2 := by
  have hperm := List.perm_insertionSort (fun p q : Card × Int => q.2 ≤ p.2) l
  have hsorted :=
    List.sorted_insertionSort (fun p q : Card × Int => q.2 ≤ p.2) l
  rw [h] at hperm hsorted
  refine ⟨hperm.mem_iff.1 (List.mem_cons_self top rest), ?_⟩
  intro e he
  have hmem : e ∈ top :: rest := hperm.mem_iff.2 he
  rcases List.mem_cons.1 hmem with rfl | hin
  · exact le_refl _
  · exact (List.sorted_cons.1 hsorted).1 e hin

lemma findBestDiscard_max (hand : List Card) (melds : List Meld) (c : Card)
    (h : findBestDiscard hand melds = some c) :
    c ∈ hand ∧
      ∀ d ∈ hand, discardScore hand melds d ≤ discardScore hand melds c := by
  cases hand with
  | nil => simp [findBestDiscard] at h
  | cons a l =>
      simp only [findBestDiscard] at h
      cases hs : ((a :: l).map
          (fun d => (d, discardScore (a :: l) melds d))).insertionSort
          (fun p q => q.2 ≤ p.2) with
      | nil =>
          have := List.perm_insertionSort
            (fun p q : Card × Int => q.2 ≤ p.2)
            ((a :: l).map (fun d => (d, discardScore (a :: l) melds d)))
          rw [hs] at this
          simpa using this.length_eq
      | cons top rest =>
          rw [hs] at h
          have h1 : top.1 = c := by simpa using h
          obtain ⟨htop, hmax⟩ := head_insertionSort_max _ top rest hs
          obtain ⟨d, hd, hde⟩ := List.mem_map.1 htop
          have hdc : d = c := by rw [← h1, ← hde]
          subst hdc
          have htop2 : top.2 = discardScore (a :: l) melds d := by
            rw [← hde]
          refine ⟨hd, ?_⟩
          intro e he
          have : (e, discardScore (a :: l) melds e) ∈
              (a :: l).map (fun d => (d, discardScore (a :: l) melds d)) :=
            List.mem_map_of_mem _ he
          have := hmax _ this
          simpa [htop2] using this

lemma discardScore_extender_le (hand : List Card) (melds : List Meld)
    (x : Card)
    (hx : 1 ≤ (melds.filter (fun m => (canAddToMeld x m).valid)).length) :
    discardScore hand melds x ≤ (x.value : Int) - 20 := by
  simp only [discardScore]
  split_ifs <;> push_cast <;> omega

lemma discardScore_unrelated_eq (hand : List Card) (melds : List Meld)
    (y : Card)
    (h1 : (melds.filter (fun m => (canAddToMeld y m).valid)).length = 0)
    (h2 : ¬((findPossibleMelds (hand.filter (fun e => e.id != y.id))).length <
      (findPossibleMelds hand).length))
    (h3 : (hand.filter (fun e => e.rank == y.rank && e.id != y.id)).length = 0)
    (h4 : ((hand.filter (fun e => e.suit == y.suit && e.id != y.id)).filter
      (fun e => e.value = y.value + 1 || y.value = e.value + 1)).length = 0) :
    discardScore hand melds y = (y.value : Int) := by
  simp only [discardScore, h1, h2, h3, h4]
  simp

/-- A table meld `[2♦, 3♦, 4♦]` used by the C9 theorems. -/
def c9MeldD : Meld := { cards := [cD2, cD3, cD4], playerId := "p1", id := "t1" }

/-- The spade melds that make the king of spades a double extender. -/
def c9MeldRun : Meld :=
  { cards := [cS10, cSJ, cSQ], playerId := "p1", id := "t2" }
def c9MeldKings : Meld :=
  { cards := [cHK, cDK, cCK], playerId := "p1", id := "t3" }

/-- Counterexample to **C9**: the source subtracts 20 for *each* table
meld a card could extend, not once.  With the table
`[[10♠,J♠,Q♠], [K♥,K♦,K♣], [2♦,3♦,4♦]]` and the hand `[K♠, 5♦]`, the
claim's scoring gives K♠ = 13−20 = −7 and 5♦ = 5−20 = −15, so the
claimed highest-scoring discard is K♠; the code scores K♠ = 13−40 =
−27 (two extendable melds) and returns 5♦ instead. -/
theorem C9_counterexample :
    findBestDiscard [cSK, cD5] [c9MeldRun, c9MeldKings, c9MeldD] =
      some cD5 ∧
    discardScore [cSK, cD5] [c9MeldRun, c9MeldKings, c9MeldD] cSK = -27 ∧
    ((13 : Int) - 20 > (5 : Int) - 20) := by decide

/-- **C9 (amended)**: `findBestDiscard` scores each card as its rank
value, minus 20 for *each* existing table meld the card could extend,
minus 15 if removing it from the hand would reduce the count of melds
the hand can form, minus 5 if a rank-mate is present and minus 5 if a
suit-adjacent card is present, and returns a card of maximal score;
consequently, for every hand containing a card that can extend an
existing table meld (of value at most the king's 13) together with an
unrelated deduction-free card, `findBestDiscard` does not select the
meld-extending card. -/
theorem C9_discard_heuristic (hand : List Card) (melds : List Meld)
    (c : Card) (hres : findBestDiscard hand melds = some c) :
    (c ∈ hand ∧
      ∀ d ∈ hand, discardScore hand melds d ≤ discardScore hand melds c) ∧
    (∀ x y, x ∈ hand → y ∈ hand →
      1 ≤ (melds.filter (fun m => (canAddToMeld x m).valid)).length →
      x.value ≤ 13 →
      (melds.filter (fun m => (canAddToMeld y m).valid)).length = 0 →
      ¬((findPossibleMelds (hand.filter (fun e => e.id != y.id))).length <
        (findPossibleMelds hand).length) →
      (hand.filter (fun e => e.rank == y.rank && e.id != y.id)).length = 0 →
      ((hand.filter (fun e => e.suit == y.suit && e.id != y.id)).filter
        (fun e => e.value = y.value + 1 || y.value = e.value + 1)).length = 0 →
      1 ≤ y.value → c ≠ x) := by
  obtain ⟨hc, hmax⟩ := findBestDiscard_max hand melds c hres
  refine ⟨⟨hc, hmax⟩, ?_⟩
  intro x y hxmem hymem hx1 hx2 hy1 hy2 hy3 hy4 hy5 hcx
  subst hcx
  have hsx : discardScore hand melds c ≤ (c.value : Int) - 20 :=
    discardScore_extender_le hand melds c hx1
  have hsy : discardScore hand melds y = (y.value : Int) :=
    discardScore_unrelated_eq hand melds y hy1 hy2 hy3 hy4
  have := hmax y hymem
  rw [hsy] at this
  omega

/-- Witness for C9: on the hand `[5♦, K♠]` with the single table meld
`[2♦,3♦,4♦]`, the returned discard is the unrelated king, never the
run-extending 5♦. -/
theorem C9_witness :
    findBestDiscard [cD5, cSK] [c9MeldD] = some cSK ∧ cSK ≠ cD5 := by
  have h := C9_discard_heuristic [cD5, cSK] [c9MeldD] cSK (by decide)
  exact ⟨by decide, h.2 cD5 cSK (by decide) (by decide) (by decide)
    (by decide) (by decide) (by decide) (by decide) (by decide) (by decide)⟩

/-! ## C3: `isValidRun` against the spec's description -/

instance : IsTotal Card (fun a b => a.value ≤ b.value) :=
  ⟨fun a b => le_total a.value b.value⟩

instance : IsTrans Card (fun a b => a.value ≤ b.value) :=
  ⟨fun _ _ _ => le_trans⟩

instance : IsTotal Card (fun a b => aceHighValue a ≤ aceHighValue b) :=
  ⟨fun a b => le_total (aceHighValue a) (aceHighValue b)⟩

instance : IsTrans Card (fun a b => aceHighValue a ≤ aceHighValue b) :=
  ⟨fun _ _ _ => le_trans⟩

instance instIsAntisymmNatLe : IsAntisymm Nat (fun a b => a ≤ b) :=
  ⟨fun _ _ => Nat.le_antisymm⟩

/-- Sorting the cards by a key and reading the key off equals sorting
the keys. -/
lemma map_insertionSort_key (cards : List Card) (f : Card → Nat)
    [inst1 : IsTotal Card (fun a b => f a ≤ f b)]
    [inst2 : IsTrans Card (fun a b => f a ≤ f b)] :
    (cards.insertionSort (fun a b => f a ≤ f b)).map f =
      (cards.map f).insertionSort (fun a b => a ≤ b) := by
  refine List.eq_of_perm_of_sorted (r := fun a b : Nat => a ≤ b) ?_ ?_ ?_
  · exact ((List.perm_insertionSort _ cards).map f).trans
      (List.perm_insertionSort _ (cards.map f)).symm
  · exact List.Pairwise.map f (fun a b h => h)
      (List.sorted_insertionSort (fun a b => f a ≤ f b) cards)
  · exact List.sorted_insertionSort _ _

lemma map_sortByValue (cards : List Card) :
    (sortByValue cards).map (fun c => c.value) =
      (cards.map (fun c => c.value)).insertionSort (fun a b => a ≤ b) :=
  map_insertionSort_key cards (fun c => c.value)

lemma map_sortByAceHighValue (cards : List Card) :
    (sortByAceHighValue cards).map aceHighValue =
      (cards.map aceHighValue).insertionSort (fun a b => a ≤ b) :=
  map_insertionSort_key cards aceHighValue

/-- A non-empty list passes `isConsecutiveVals` exactly when it is the
interval starting at its head. -/
lemma isConsecutiveVals_iff_range :
    ∀ (l : List Nat) (a : Nat),
      isConsecutiveVals (a :: l) = true ↔
        a :: l = List.range' a (l.length + 1) := by
  intro l
  induction l with
  | nil => intro a; simp [isConsecutiveVals, List.range']
  | cons b t ih =>
      intro a
      simp only [List.length_cons]
      rw [show isConsecutiveVals (a :: b :: t) =
        ((b == a + 1) && isConsecutiveVals (b :: t)) from rfl]
      rw [show List.range' a (t.length + 1 + 1) =
        a :: List.range' (a + 1) (t.length + 1) from rfl]
      constructor
      · intro h
        rw [Bool.and_eq_true] at h
        obtain ⟨h1, h2⟩ := h
        have hb : b = a + 1 := by simpa using h1
        have := (ih b).1 h2
        rw [List.cons_eq_cons]
        exact ⟨rfl, by rw [this, hb]⟩
      · intro h
        rw [List.cons_eq_cons] at h
        obtain ⟨-, h2⟩ := h
        have hb : b = a + 1 := by
          have : b :: t = List.range' (a + 1) (t.length + 1) := h2
          have hlen0 : 0 < t.length + 1 := Nat.succ_pos _
          have := congrArg (fun l => l.head?) this
          simpa [List.range'] using this
        rw [Bool.and_eq_true]
        refine ⟨by simpa using hb, (ih b).2 ?_⟩
        rw [h2, hb]

lemma isConsecutiveVals_range' (a n : Nat) :
    isConsecutiveVals (List.range' a n) = true := by
  cases n with
  | zero => rfl
  | succ m =>
      rw [List.range'_succ]
      exact (isConsecutiveVals_iff_range _ a).2 (by simp [List.range'_succ])

/-- Facts about `getRankValue` on the thirteen real ranks. -/
lemma rankValue_facts :
    ∀ r ∈ RANKS, 1 ≤ getRankValue r ∧ getRankValue r ≤ 13 ∧
      (getRankValue r = 13 ↔ r = "K") ∧ (getRankValue r = 1 ↔ r = "A") ∧
      (r ≠ "A" → 2 ≤ getRankValue r) ∧ (getRankValue r = 2 ↔ r = "2") := by
  decide

/-- The low-ace (A = 1) reading of "the values form a consecutive
ascending sequence". -/
def specRunLowOk (cards : List Card) : Bool :=
  isConsecutiveVals
    ((cards.map (fun c => c.value)).insertionSort (fun a b => a ≤ b))

/-- The high-ace (A = 14) reading. -/
def specRunHighOk (cards : List Card) : Bool :=
  isConsecutiveVals ((cards.map aceHighValue).insertionSort (fun a b => a ≤ b))

/-- Modelled from the claim's wording, for comparison with the source's
`isValidRun`: at least 3 cards, all of the same suit, consecutive
ascending values under the low-ace interpretation or — only when the
cards contain an Ace and a King but not a 2 — under the high-ace
interpretation. -/
def specValidRun (cards : List Card) : Bool :=
  decide (3 ≤ cards.length) &&
  (match cards with
    | [] => false
    | c0 :: _ => cards.all (fun c => c.suit == c0.suit)) &&
  (specRunLowOk cards ||
    (cards.any (fun c => c.rank == "A") && cards.any (fun c => c.rank == "K") &&
      !(cards.any (fun c => c.rank == "2")) && specRunHighOk cards))

/-- If the high-ace values of an ace-containing well-formed hand are
consecutive, they form the interval ending at 14. -/
lemma high_range_shape (cards : List Card)
    (hwf : ∀ c ∈ cards, c.rank ∈ RANKS ∧ c.value = getRankValue c.rank)
    (hlen : 3 ≤ cards.length)
    (hace : cards.any (fun c => c.rank == "A") = true)
    (hhigh : specRunHighOk cards = true) :
    ∃ a, a + cards.length = 15 ∧
      (cards.map aceHighValue).insertionSort (fun a b => a ≤ b) =
        List.range' a cards.length := by
  have hperm : ((cards.map aceHighValue).insertionSort
      (fun a b => a ≤ b)).Perm (cards.map aceHighValue) :=
    List.perm_insertionSort _ _
  have hlenH : ((cards.map aceHighValue).insertionSort
      (fun a b => a ≤ b)).length = cards.length := by
    rw [hperm.length_eq, List.length_map]
  cases hH : (cards.map aceHighValue).insertionSort (fun a b => a ≤ b) with
  | nil => rw [hH] at hlenH; simp at hlenH; omega
  | cons a t =>
      rw [hH] at hlenH
      simp only [List.length_cons] at hlenH
      have hrange : a :: t = List.range' a (t.length + 1) :=
        (isConsecutiveVals_iff_range t a).1 (by rw [← hH]; exact hhigh)
      have h14 : (14 : Nat) ∈ a :: t := by
        rw [List.any_eq_true] at hace
        obtain ⟨c, hc, hcr⟩ := hace
        have hc14 : aceHighValue c = 14 := by
          simp [aceHighValue, (by simpa using hcr : c.rank = "A")]
        rw [← hH]
        exact hperm.mem_iff.2 (List.mem_map.2 ⟨c, hc, hc14⟩)
      have hbound : ∀ v ∈ a :: t, v ≤ 14 := by
        intro v hv
        rw [← hH] at hv
        obtain ⟨c, hc, rfl⟩ := List.mem_map.1 (hperm.mem_iff.1 hv)
        obtain ⟨hr, hval⟩ := hwf c hc
        by_cases hA : c.rank = "A"
        · simp [aceHighValue, hA]
        · have h13 := (rankValue_facts c.rank hr).2.1
          simp only [aceHighValue, hA, if_false]
          omega
      rw [hrange] at h14
      rw [List.mem_range'_1] at h14
      have hlast : a + t.length ∈ List.range' a (t.length + 1) := by
        rw [List.mem_range'_1]
        omega
      have hlast14 : a + t.length ≤ 14 := hbound _ (by rw [hrange]; exact hlast)
      have ha14 : a + t.length = 14 := by omega
      refine ⟨a, by omega, ?_⟩
      rw [hrange, ← hlenH]

/-- Code agrees with the claim, part 1: a consecutive high-ace hand
with an ace necessarily contains a king. -/
lemma high_run_has_king (cards : List Card)
    (hwf : ∀ c ∈ cards, c.rank ∈ RANKS ∧ c.value = getRankValue c.rank)
    (hlen : 3 ≤ cards.length)
    (hace : cards.any (fun c => c.rank == "A") = true)
    (hhigh : specRunHighOk cards = true) :
    cards.any (fun c => c.rank == "K") = true := by
  obtain ⟨a, ha, hshape⟩ := high_range_shape cards hwf hlen hace hhigh
  have hperm : ((cards.map aceHighValue).insertionSort
      (fun a b => a ≤ b)).Perm (cards.map aceHighValue) :=
    List.perm_insertionSort _ _
  have h13 : (13 : Nat) ∈ List.range' a cards.length := by
    rw [List.mem_range'_1]
    omega
  have : (13 : Nat) ∈ cards.map aceHighValue := by
    rw [← hshape] at h13
    exact hperm.mem_iff.1 h13
  obtain ⟨c, hc, hc13⟩ := List.mem_map.1 this
  obtain ⟨hr, hval⟩ := hwf c hc
  have hA : c.rank ≠ "A" := by
    intro h
    rw [aceHighValue, if_pos h] at hc13
    omega
  have h13v : getRankValue c.rank = 13 := by
    rw [aceHighValue, if_neg hA] at hc13
    rw [← hval]
    exact hc13
  have hK : c.rank = "K" := ((rankValue_facts c.rank hr).2.2.1).1 h13v
  rw [List.any_eq_true]
  exact ⟨c, hc, by simp [hK]⟩

/-- Code agrees with the claim, part 2: a consecutive high-ace hand
with an ace and a two is also consecutive under the low-ace reading
(so the high-ace branch never decides such a hand). -/
lemma high_run_with_two_low (cards : List Card)
    (hwf : ∀ c ∈ cards, c.rank ∈ RANKS ∧ c.value = getRankValue c.rank)
    (hlen : 3 ≤ cards.length)
    (hace : cards.any (fun c => c.rank == "A") = true)
    (htwo : cards.any (fun c => c.rank == "2") = true)
    (hhigh : specRunHighOk cards = true) :
    specRunLowOk cards = true := by
  obtain ⟨a, ha, hshape⟩ := high_range_shape cards hwf hlen hace hhigh
  have hperm : ((cards.map aceHighValue).insertionSort
      (fun a b => a ≤ b)).Perm (cards.map aceHighValue) :=
    List.perm_insertionSort _ _
  -- the two forces the interval to start at 2, hence be [2..14]
  have h2 : (2 : Nat) ∈ List.range' a cards.length := by
    rw [List.any_eq_true] at htwo
    obtain ⟨c, hc, hcr⟩ := htwo
    have hc2 : aceHighValue c = 2 := by
      have hc2r : c.rank = "2" := by simpa using hcr
      obtain ⟨hr, hval⟩ := hwf c hc
      simp [aceHighValue, hc2r, hval, getRankValue, parseNumeral]
    rw [← hshape]
    exact hperm.mem_iff.2 (List.mem_map.2 ⟨c, hc, hc2⟩)
  have hlow2 : ∀ v ∈ List.range' a cards.length, 2 ≤ v := by
    intro v hv
    rw [← hshape] at hv
    obtain ⟨c, hc, rfl⟩ := List.mem_map.1 (hperm.mem_iff.1 hv)
    obtain ⟨hr, hval⟩ := hwf c hc
    by_cases hA : c.rank = "A"
    · simp [aceHighValue, hA]
    · have := (rankValue_facts c.rank hr).2.2.2.2.1 hA
      simp only [aceHighValue, hA, if_false]
      omega
  have ha2 : a = 2 := by
    rw [List.mem_range'_1] at h2
    have haself : a ∈ List.range' a cards.length := by
      rw [List.mem_range'_1]
      omega
    have := hlow2 a haself
    omega
  have hlen13 : cards.length = 13 := by omega
  -- the high values are a permutation of [2..14]
  have hpermM : (cards.map aceHighValue).Perm (List.range' 2 13) := by
    have := hperm.symm
    rw [hshape, ha2, hlen13] at this
    exact this
  -- count the low values: exactly one of each of 1..13
  have hcount : ∀ v, (cards.map (fun c => c.value)).count v =
      (List.range' 1 13).count v := by
    intro v
    have hcN : (cards.map (fun c => c.value)).count v =
        cards.countP (fun c => c.value == v) := by
      rw [List.count, List.countP_map]
      rfl
    have hcM : ∀ w, (cards.map aceHighValue).count w =
        cards.countP (fun c => aceHighValue c == w) := by
      intro w
      rw [List.count, List.countP_map]
      rfl
    by_cases h1 : v = 1
    · -- low value 1 ↔ ace ↔ high value 14
      subst h1
      have hagree : ∀ c ∈ cards,
          (c.value == 1) = (aceHighValue c == 14) := by
        intro c hc
        obtain ⟨hr, hval⟩ := hwf c hc
        by_cases hA : c.rank = "A"
        · simp [aceHighValue, hA, hval, getRankValue]
        · have hge := (rankValue_facts c.rank hr).2.2.2.2.1 hA
          have hle := (rankValue_facts c.rank hr).2.1
          simp only [aceHighValue, hA, if_false]
          have : c.value ≠ 1 := by omega
          have h14 : c.value ≠ 14 := by omega
          simp [this, h14]
      rw [hcN, List.countP_congr (fun c hc => by rw [hagree c hc]), ← hcM]
      rw [hpermM.count_eq]
      rw [List.count_eq_one_of_mem (List.nodup_range' 2 13)
        (by rw [List.mem_range'_1]; omega)]
      rw [List.count_eq_one_of_mem (List.nodup_range' 1 13)
        (by rw [List.mem_range'_1]; omega)]
    · by_cases h2to13 : 2 ≤ v ∧ v ≤ 13
      · -- low value v ↔ high value v
        have hagree : ∀ c ∈ cards,
            (c.value == v) = (aceHighValue c == v) := by
          intro c hc
          obtain ⟨hr, hval⟩ := hwf c hc
          by_cases hA : c.rank = "A"
          · have hv1 : c.value = 1 := by
              rw [hval, hA]
              rfl
            have hne : c.value ≠ v := by omega
            have hne14 : (14 : Nat) ≠ v := by omega
            simp [aceHighValue, hA, hne, hne14]
          · simp [aceHighValue, hA]
        rw [hcN, List.countP_congr (fun c hc => by rw [hagree c hc]), ← hcM]
        rw [hpermM.count_eq]
        rw [List.count_eq_one_of_mem (List.nodup_range' 2 13)
          (by rw [List.mem_range'_1]; omega)]
        rw [List.count_eq_one_of_mem (List.nodup_range' 1 13)
          (by rw [List.mem_range'_1]; omega)]
      · -- v outside 1..13: zero on both sides
        have hzero : (cards.map (fun c => c.value)).count v = 0 := by
          rw [List.count_eq_zero]
          intro hv
          obtain ⟨c, hc, rfl⟩ := List.mem_map.1 hv
          obtain ⟨hr, hval⟩ := hwf c hc
          have hge := (rankValue_facts c.rank hr).1
          have hle := (rankValue_facts c.rank hr).2.1
          omega
        rw [hzero]
        rw [Eq.comm, List.count_eq_zero]
        intro hv
        rw [List.mem_range'_1] at hv
        omega
  have hpermN : (cards.map (fun c => c.value)).Perm (List.range' 1 13) :=
    List.perm_iff_count.2 hcount
  -- the sorted low values are then exactly [1..13]
  have hsortedrange : List.Sorted (fun a b : Nat => a ≤ b)
      (List.range' 1 13) :=
    (List.pairwise_lt_range' 1 13).imp (fun h => le_of_lt h)
  have hL : (cards.map (fun c => c.value)).insertionSort
      (fun a b => a ≤ b) = List.range' 1 13 := by
    refine List.eq_of_perm_of_sorted (r := fun a b : Nat => a ≤ b) ?_ ?_
      hsortedrange
    · exact (List.perm_insertionSort _ _).trans hpermN
    · exact List.sorted_insertionSort _ _
  rw [specRunLowOk, hL]
  exact isConsecutiveVals_range' 1 13

/-- **C3**: for well-formed cards (real ranks, cached value matching
`getRankValue`), `isValidRun` returns true exactly as the claim
describes: at least 3 cards of one suit whose values form a consecutive
ascending sequence under the low-ace interpretation, or under the
high-ace interpretation when the cards contain an Ace and a King but
not a 2.  (The source only tests for an Ace before trying the high-ace
reading, but a consecutive high-ace sequence of 3+ cards always
contains a King, and one containing a 2 is already low-consecutive, so
the two readings agree.) -/
theorem C3_run_validity (cards : List Card)
    (hwf : ∀ c ∈ cards, c.rank ∈ RANKS ∧ c.value = getRankValue c.rank) :
    isValidRun cards = specValidRun cards := by
  by_cases hlen : cards.length < 3
  · have h1 : ¬ 3 ≤ cards.length := by omega
    cases cards with
    | nil => rfl
    | cons c0 rest =>
        have e1 : rest.length + 1 < 3 := by simpa using hlen
        have e2 : ¬ 2 ≤ rest.length := by omega
        simp [isValidRun, specValidRun, e1, e2]
  · have h3 : 3 ≤ cards.length := by omega
    cases cards with
    | nil => simp at h3
    | cons c0 rest =>
      have e1 : ¬ (rest.length + 1 < 3) := by simpa using hlen
      have e2 : 2 ≤ rest.length := by
        simp only [List.length_cons] at h3
        omega
      have bridgeL : isConsecutiveVals
          (List.map (fun c => c.value) (sortByValue (c0 :: rest))) =
            specRunLowOk (c0 :: rest) := by
        rw [specRunLowOk, map_sortByValue]
      have bridgeH : isConsecutiveVals
          (List.map aceHighValue (sortByAceHighValue (c0 :: rest))) =
            specRunHighOk (c0 :: rest) := by
        rw [specRunHighOk, map_sortByAceHighValue]
      by_cases hsuit : (c0 :: rest).all (fun c => c.suit == c0.suit) = true
      · by_cases hlow : specRunLowOk (c0 :: rest) = true
        · simp [isValidRun, specValidRun, e1, e2, hsuit, bridgeL, hlow]
        · have hlowf : specRunLowOk (c0 :: rest) = false := by
            revert hlow
            cases specRunLowOk (c0 :: rest) <;> simp
          by_cases hace : (c0 :: rest).any (fun c => c.rank == "A") = true
          · by_cases hhigh : specRunHighOk (c0 :: rest) = true
            · have hking := high_run_has_king _ hwf h3 hace hhigh
              have h2f : (c0 :: rest).any (fun c => c.rank == "2") = false := by
                by_contra h2t
                have h2t2 : (c0 :: rest).any (fun c => c.rank == "2") = true := by
                  revert h2t
                  cases (c0 :: rest).any (fun c => c.rank == "2") <;> simp
                have := high_run_with_two_low _ hwf h3 hace h2t2 hhigh
                rw [this] at hlowf
                exact Bool.noConfusion hlowf
              simp [isValidRun, specValidRun, e1, e2, hsuit, bridgeL,
                bridgeH, hlowf, hace, hhigh, hking, h2f]
            · have hhighf : specRunHighOk (c0 :: rest) = false := by
                revert hhigh
                cases specRunHighOk (c0 :: rest) <;> simp
              simp [isValidRun, specValidRun, e1, e2, hsuit, bridgeL,
                bridgeH, hlowf, hace, hhighf]
          · have hacef : (c0 :: rest).any (fun c => c.rank == "A") = false := by
              revert hace
              cases (c0 :: rest).any (fun c => c.rank == "A") <;> simp
            simp [isValidRun, specValidRun, e1, e2, hsuit, bridgeL,
              bridgeH, hlowf, hacef]
      · have hsuitf : (c0 :: rest).all (fun c => c.suit == c0.suit) = false := by
          revert hsuit
          cases (c0 :: rest).all (fun c => c.suit == c0.suit) <;> simp
        simp [isValidRun, specValidRun, e1, e2, hsuitf]

/-- Witness for C3: the claim's example cases evaluate as stated, and
the equivalence theorem applies to the high-ace example. -/
theorem C3_witness :
    isValidRun [cH4, cH5, cH6] = true ∧
    isValidRun [cSQ, cSK, cSA] = true ∧
    isValidRun [cSA, cS2, cS3] = true ∧
    isValidRun [cH4, cD5, cH6] = false ∧
    isValidRun [cSK, cSA, cS2] = false ∧
    isValidRun [cSQ, cSK, cSA] = specValidRun [cSQ, cSK, cSA] :=
  ⟨by decide, by decide, by decide, by decide, by decide,
    C3_run_validity [cSQ, cSK, cSA] (by decide)⟩

/-! ## C2: the meld-legality invariant -/

/-- Every meld of the list has 3+ cards and passes `isValidMeld`. -/
def meldsOK (melds : List Meld) : Bool :=
  melds.all (fun m => decide (3 ≤ m.cards.length) && isValidMeld m.cards)

lemma meldsOK_iff (melds : List Meld) :
    meldsOK melds = true ↔
      ∀ m ∈ melds, 3 ≤ m.cards.length ∧ isValidMeld m.cards = true := by
  simp [meldsOK, List.all_eq_true]

lemma isValidMeld_length (cards : List Card) (h : isValidMeld cards = true) :
    3 ≤ cards.length := by
  by_contra hlt
  have h3 : cards.length < 3 := by omega
  rw [isValidMeld, Bool.or_eq_true] at h
  rcases h with h | h
  · simp [isValidRun, h3] at h
  · simp [isValidSet, h3] at h

/-- A non-empty list of 3+ same-suit cards listed in consecutive
ascending order is a valid run (sorting leaves it unchanged). -/
lemma chain_isValidRun (run : List Card) (s0 : String)
    (hlen : 3 ≤ run.length) (hsuit : ∀ c ∈ run, c.suit = s0)
    (hcons : isConsecutiveVals (run.map (fun c => c.value)) = true) :
    isValidRun run = true := by
  cases run with
  | nil => simp at hlen
  | cons c0 rest =>
      have hnlt : ¬ ((c0 :: rest).length < 3) := by omega
      have e2 : 2 ≤ rest.length := by
        simp only [List.length_cons] at hlen
        omega
      have hall : (c0 :: rest).all (fun c => c.suit == c0.suit) = true := by
        rw [List.all_eq_true]
        intro c hc
        have h1 := hsuit c hc
        have h0 := hsuit c0 (List.mem_cons_self _ _)
        simp [h1, h0]
      have hconsc : isConsecutiveVals
          (c0.value :: rest.map (fun c => c.value)) = true := by
        simpa using hcons
      have hrange : (c0 :: rest).map (fun c => c.value) =
          List.range' c0.value ((rest.map (fun c => c.value)).length + 1) := by
        rw [List.map_cons]
        exact (isConsecutiveVals_iff_range (rest.map (fun c => c.value))
          c0.value).1 hconsc
      have hpair : List.Pairwise (fun a b : Card => a.value < b.value)
          (c0 :: rest) := by
        have hp := List.pairwise_lt_range' c0.value
          ((rest.map (fun c => c.value)).length + 1)
        rw [← hrange] at hp
        exact (List.pairwise_map).1 hp
      have hsorted : List.Sorted (fun a b : Card => a.value ≤ b.value)
          (c0 :: rest) := hpair.imp (fun h => le_of_lt h)
      have hsortEq : sortByValue (c0 :: rest) = c0 :: rest :=
        List.Sorted.insertionSort_eq hsorted
      simp [isValidRun, hnlt, hall, hsortEq, hconsc, e2]

lemma isConsecutiveVals_append (l : List Nat) (x : Nat) (hne : l ≠ []) :
    isConsecutiveVals (l ++ [x]) =
      (isConsecutiveVals l && (x == (l.getLast?.getD 0) + 1)) := by
  induction l with
  | nil => cases hne rfl
  | cons a t ih =>
      cases t with
      | nil => simp [isConsecutiveVals]
      | cons b t2 =>
          have ihne : (b :: t2) ≠ [] := by simp
          have hstep : isConsecutiveVals ((a :: b :: t2) ++ [x]) =
              ((b == a + 1) && isConsecutiveVals ((b :: t2) ++ [x])) := rfl
          have hstep2 : isConsecutiveVals (a :: b :: t2) =
              ((b == a + 1) && isConsecutiveVals (b :: t2)) := rfl
          rw [hstep, ih ihne, hstep2]
          rw [show (a :: b :: t2).getLast?.getD 0 =
            (b :: t2).getLast?.getD 0 from by
              rw [List.getLast?_cons_cons]]
          rw [Bool.and_assoc]

/-- The inner loop of `findAllRuns` only emits valid runs, given a
same-suit context and a consecutive partial run. -/
lemma runFrom_valid :
    ∀ (suitCards run : List Card) (s0 : String), run ≠ [] →
      (∀ c ∈ run, c.suit = s0) → (∀ c ∈ suitCards, c.suit = s0) →
      isConsecutiveVals (run.map (fun c => c.value)) = true →
      ∀ r ∈ runFrom suitCards run, isValidRun r = true := by
  intro suitCards
  induction suitCards with
  | nil =>
      intro run s0 _ _ _ _ r hr
      simp [runFrom] at hr
  | cons c rest ih =>
      intro run s0 hne hrs hsc hcons r hr
      simp only [runFrom] at hr
      by_cases h1 : c.value = (run.getLast?.map (fun x => x.value)).getD 0 + 1
      · rw [if_pos h1] at hr
        have hmapne : run.map (fun c => c.value) ≠ [] := by
          simpa using hne
        have hlastmap : (run.map (fun c => c.value)).getLast?.getD 0 =
            (run.getLast?.map (fun x => x.value)).getD 0 := by
          rw [List.getLast?_map]
        have hcons2 : isConsecutiveVals
            ((run ++ [c]).map (fun c => c.value)) = true := by
          have hsplit : (run ++ [c]).map (fun c => c.value) =
              run.map (fun c => c.value) ++ [c.value] := by simp
          rw [hsplit, isConsecutiveVals_append _ _ hmapne, Bool.and_eq_true]
          refine ⟨hcons, ?_⟩
          rw [hlastmap]
          simp [h1]
        have hsuit2 : ∀ d ∈ run ++ [c], d.suit = s0 := by
          intro d hd
          rcases List.mem_append.1 hd with h | h
          · exact hrs d h
          · rw [List.mem_singleton] at h
            subst h
            exact hsc d (List.mem_cons_self _ _)
        rcases List.mem_append.1 hr with hr1 | hr2
        · by_cases hlen3 : (run ++ [c]).length ≥ 3
          · rw [if_pos hlen3] at hr1
            rw [List.mem_singleton] at hr1
            subst hr1
            exact chain_isValidRun _ s0 hlen3 hsuit2 hcons2
          · rw [if_neg hlen3] at hr1
            simp at hr1
        · exact ih (run ++ [c]) s0 (by simp) hsuit2
            (fun d hd => hsc d (List.mem_cons_of_mem _ hd)) hcons2 r hr2
      · rw [if_neg h1] at hr
        by_cases h2 : c.value ≠ (run.getLast?.map (fun x => x.value)).getD 0
        · rw [if_pos h2] at hr
          simp at hr
        · rw [if_neg h2] at hr
          exact ih run s0 hne hrs
            (fun d hd => hsc d (List.mem_cons_of_mem _ hd)) hcons r hr

lemma sortByValue_mem (cards : List Card) (c : Card)
    (h : c ∈ sortByValue cards) : c ∈ cards :=
  (List.perm_insertionSort _ cards).mem_iff.1 h

/-- Every candidate of `findAllRuns` is a valid run. -/
lemma findAllRuns_valid (cards : List Card) :
    ∀ r ∈ findAllRuns cards, isValidRun r = true := by
  intro r hr
  rw [findAllRuns] at hr
  obtain ⟨g, hg, hr2⟩ := List.mem_flatMap.1 hr
  obtain ⟨s, _, rfl⟩ := List.mem_map.1 hg
  obtain ⟨start, _, hr3⟩ := List.mem_flatMap.1 hr2
  have hsuitAll : ∀ d ∈ sortByValue (cards.filter (fun c => c.suit == s)),
      d.suit = s := by
    intro d hd
    have := sortByValue_mem _ _ hd
    have := List.of_mem_filter this
    simpa using this
  cases hdrop : (sortByValue (cards.filter (fun c => c.suit == s))).drop start with
  | nil => rw [hdrop] at hr3; simp at hr3
  | cons c rest =>
      rw [hdrop] at hr3
      have hsub : ∀ d ∈ c :: rest,
          d ∈ sortByValue (cards.filter (fun c => c.suit == s)) := by
        intro d hd
        rw [← hdrop] at hd
        exact (List.drop_sublist start _).subset hd
      refine runFrom_valid rest [c] s (by simp) ?_ ?_ (by rfl) r hr3
      · intro d hd
        rw [List.mem_singleton] at hd
        subst hd
        exact hsuitAll d (hsub d (List.mem_cons_self _ _))
      · intro d hd
        exact hsuitAll d (hsub d (List.mem_cons_of_mem _ hd))

lemma take_isValidSet (g : List Card) (rk : String)
    (hall : ∀ d ∈ g, d.rank = rk) (hlen : 3 ≤ g.length) :
    isValidSet g = true := by
  cases g with
  | nil => simp at hlen
  | cons c0 rest =>
      have hnlt : ¬ ((c0 :: rest).length < 3) := by omega
      rw [isValidSet.eq_def]
      rw [if_neg hnlt]
      rw [List.all_eq_true]
      intro c hc
      have := hall c hc
      have h0 := hall c0 (List.mem_cons_self _ _)
      simp [this, h0]

/-- Every candidate of `findAllSets` is a valid set. -/
lemma findAllSets_valid (cards : List Card) :
    ∀ m ∈ findAllSets cards, isValidSet m = true := by
  intro m hm
  rw [findAllSets] at hm
  obtain ⟨g, hg, hm2⟩ := List.mem_flatMap.1 hm
  obtain ⟨rk, _, rfl⟩ := List.mem_map.1 hg
  have hall : ∀ d ∈ cards.filter (fun c => c.rank == rk), d.rank = rk := by
    intro d hd
    have := List.of_mem_filter hd
    simpa using this
  by_cases h3 : (cards.filter (fun c => c.rank == rk)).length ≥ 3
  · rw [if_pos h3] at hm2
    have htake : ∀ k, 3 ≤ k →
        isValidSet ((cards.filter (fun c => c.rank == rk)).take k) = true := by
      intro k hk
      refine take_isValidSet _ rk ?_ ?_
      · intro d hd
        exact hall d (List.mem_of_mem_take hd)
      · rw [List.length_take]
        omega
    rcases List.mem_append.1 hm2 with h | h
    · rw [List.mem_singleton] at h
      subst h
      exact htake 3 (by omega)
    · by_cases h4 : (cards.filter (fun c => c.rank == rk)).length ≥ 4
      · rw [if_pos h4] at h
        rw [List.mem_singleton] at h
        subst h
        exact htake 4 (by omega)
      · rw [if_neg h4] at h
        simp at h
  · rw [if_neg h3] at hm2
    simp at hm2

/-- The recursive search only assembles melds drawn from the current
selection and the candidate list. -/
lemma fbmcGo_melds_sub :
    ∀ (fuel : Nat) (avail : List Card) (poss : List (List Card))
      (req : List String) (cur : List (List Card)),
      ∀ m ∈ (fbmcGo avail poss req fuel cur).melds, m ∈ cur ∨ m ∈ poss := by
  intro fuel
  induction fuel with
  | zero =>
      intro avail poss req cur m hm
      rw [fbmcGo] at hm
      exact Or.inl hm
  | succ f ih =>
      intro avail poss req cur m hm
      rw [fbmcGo] at hm
      by_cases hv : (poss.filter (fun meld =>
          meld.all (fun card =>
            !(cur.flatMap (fun m => m.map (fun c => c.id))).contains
              card.id))).isEmpty
      · rw [if_pos hv] at hm
        exact Or.inl hm
      · rw [if_neg hv] at hm
        revert m
        have := List.foldlRecOn (motive := fun (b : ArrangeResult) =>
            ∀ m ∈ b.melds, m ∈ cur ∨ m ∈ poss)
          (poss.filter (fun meld =>
            meld.all (fun card =>
              !(cur.flatMap (fun m => m.map (fun c => c.id))).contains
                card.id)))
          (fun bestResult meld =>
            let result := fbmcGo avail poss req f (cur ++ [meld])
            if result.success &&
                (!bestResult.success ||
                  bestResult.handCardsUsed < result.handCardsUsed) then
              result
            else if !bestResult.success && result.success then result
            else bestResult)
          (arrangeResultOf avail req cur)
          (fun m hm => Or.inl hm)
          ?_
        · exact this
        · intro b hb meld hmeld
          simp only []
          split
          · intro m hm
            rcases ih avail poss req (cur ++ [meld]) m hm with h | h
            · rcases List.mem_append.1 h with h2 | h2
              · exact Or.inl h2
              · rw [List.mem_singleton] at h2
                subst h2
                exact Or.inr (List.mem_of_mem_filter hmeld)
            · exact Or.inr h
          · split
            · intro m hm
              rcases ih avail poss req (cur ++ [meld]) m hm with h | h
              · rcases List.mem_append.1 h with h2 | h2
                · exact Or.inl h2
                · rw [List.mem_singleton] at h2
                  subst h2
                  exact Or.inr (List.mem_of_mem_filter hmeld)
              · exact Or.inr h
            · exact hb

/-- Every meld of a `findValidArrangement` result is legal. -/
lemma findValidArrangement_melds_valid (cards : List Card)
    (req : List String) :
    ∀ m ∈ (findValidArrangement cards req).melds, isValidMeld m = true := by
  intro m hm
  rw [findValidArrangement] at hm
  by_cases he : (findAllRuns cards ++ findAllSets cards).isEmpty
  · rw [if_pos he] at hm
    simp at hm
  · rw [if_neg he] at hm
    rw [findBestMeldCombination] at hm
    rcases fbmcGo_melds_sub 11 cards _ req [] m hm with h | h
    · simp at h
    · rcases List.mem_append.1 h with h2 | h2
      · rw [isValidMeld, Bool.or_eq_true]
        exact Or.inl (findAllRuns_valid cards m h2)
      · rw [isValidMeld, Bool.or_eq_true]
        exact Or.inr (findAllSets_valid cards m h2)

/-- The melds proposed by the bot's full-table rearrangement are legal
(with 3+ cards each). -/
lemma tryBotRearrangement_newMelds_ok (tableCards hand : List Card)
    (req : List String) (freshIds : Nat → String) :
    meldsOK (tryBotRearrangement tableCards hand req freshIds).newMelds =
      true := by
  simp only [tryBotRearrangement]
  repeat' split
  all_goals try rfl
  rw [meldsOK_iff]
  intro m hmem
  obtain ⟨p, hp, rfl⟩ := List.mem_map.1 hmem
  have hsnd : p.2 ∈ (findValidArrangement (tableCards ++ hand) req).melds := by
    have := List.mem_map_of_mem Prod.snd hp
    rw [List.enum_map_snd] at this
    exact this
  have hvalid := findValidArrangement_melds_valid (tableCards ++ hand) req
    p.2 hsnd
  exact ⟨isValidMeld_length _ hvalid, hvalid⟩

/-- A hit reported by the strategy-2 hand scan yields a legal spliced
meld. -/
lemma findAdditionInHand_spec :
    ∀ (hand : List Slot) (meld : Meld) (i0 i : Nat) (card : Card)
      (pos : String),
      findAdditionInHand meld hand i0 = some (i, card, pos) →
      isValidMeld (if pos = "start" then card :: meld.cards
        else meld.cards ++ [card]) = true := by
  intro hand
  induction hand with
  | nil =>
      intro meld i0 i card pos h
      simp [findAdditionInHand] at h
  | cons sl rest ih =>
      intro meld i0 i card pos h
      rw [findAdditionInHand.eq_def] at h
      dsimp only at h
      cases sl with
      | none => exact ih meld (i0 + 1) i card pos h
      | some c =>
          by_cases h1 : isValidMeld (c :: meld.cards) = true
          · simp only [canAddToMeld, h1, if_true, ite_true, reduceIte] at h
            obtain ⟨rfl, rfl, rfl⟩ : i = i0 ∧ card = c ∧ pos = "start" := by
              simpa using h.symm
            simpa using h1
          · have h1f : isValidMeld (c :: meld.cards) = false := by
              revert h1
              cases isValidMeld (c :: meld.cards) <;> simp
            by_cases h2 : isValidMeld (meld.cards ++ [c]) = true
            · simp only [canAddToMeld, h1f, h2, Bool.false_eq_true, if_false,
                if_true, ite_true, ite_false, reduceIte] at h
              obtain ⟨rfl, rfl, rfl⟩ : i = i0 ∧ card = c ∧ pos = "end" := by
                simpa using h.symm
              rw [if_neg (by decide : ¬ ("end" : String) = "start")]
              exact h2
            · have h2f : isValidMeld (meld.cards ++ [c]) = false := by
                revert h2
                cases isValidMeld (meld.cards ++ [c]) <;> simp
              simp only [canAddToMeld, h1f, h2f, Bool.false_eq_true, if_false,
                ite_false, reduceIte] at h
              exact ih meld (i0 + 1) i card pos h

/-- The strategy-2 meld scan returns the meld found at the returned
index, and its splice is legal. -/
lemma findMeldAddition_spec :
    ∀ (melds : List Meld) (hand : List Slot) (j : Nat) (meld : Meld)
      (i : Nat) (card : Card) (pos : String),
      findMeldAddition melds hand = some (j, meld, i, card, pos) →
      melds[j]? = some meld ∧
      isValidMeld (if pos = "start" then card :: meld.cards
        else meld.cards ++ [card]) = true := by
  intro melds
  induction melds with
  | nil =>
      intro hand j meld i card pos h
      simp [findMeldAddition] at h
  | cons m rest ih =>
      intro hand j meld i card pos h
      rw [findMeldAddition] at h
      cases haid : findAdditionInHand m hand 0 with
      | some t =>
          rw [haid] at h
          obtain ⟨i0, c0, p0⟩ := t
          obtain ⟨rfl, rfl, rfl, rfl, rfl⟩ :
              0 = j ∧ m = meld ∧ i0 = i ∧ c0 = card ∧ p0 = pos := by
            simpa using h
          exact ⟨by simp, findAdditionInHand_spec hand m 0 i0 c0 p0 haid⟩
      | none =>
          rw [haid] at h
          cases hrec : findMeldAddition rest hand with
          | none => rw [hrec] at h; simp at h
          | some r =>
              rw [hrec] at h
              obtain ⟨j2, m2, i2, c2, p2⟩ := r
              obtain ⟨hj2, rfl, rfl, rfl, rfl⟩ :
                  j2 + 1 = j ∧ m2 = meld ∧ i2 = i ∧ c2 = card ∧ p2 = pos := by
                simpa using h
              subst hj2
              have hih := ih hand j2 m2 i2 c2 p2 hrec
              refine ⟨?_, hih.2⟩
              simpa using hih.1

lemma modifyMeldAt_mem :
    ∀ (melds : List Meld) (j : Nat) (f : Meld → Meld) (x : Meld),
      x ∈ modifyMeldAt melds j f →
      x ∈ melds ∨ ∃ m, melds[j]? = some m ∧ x = f m := by
  intro melds
  induction melds with
  | nil =>
      intro j f x hx
      cases j <;> simp [modifyMeldAt] at hx
  | cons m rest ih =>
      intro j f x hx
      cases j with
      | zero =>
          rw [modifyMeldAt] at hx
          rcases List.mem_cons.1 hx with rfl | hx2
          · exact Or.inr ⟨m, by simp, rfl⟩
          · exact Or.inl (List.mem_cons_of_mem _ hx2)
      | succ j2 =>
          rw [modifyMeldAt] at hx
          rcases List.mem_cons.1 hx with rfl | hx2
          · exact Or.inl (List.mem_cons_self _ _)
          · rcases ih j2 f x hx2 with h | ⟨m2, hm2, hxf⟩
            · exact Or.inl (List.mem_cons_of_mem _ h)
            · exact Or.inr ⟨m2, by simpa using hm2, hxf⟩

/-- Strategy 2 preserves the meld invariant. -/
lemma botAddLoop_meldsOK :
    ∀ (fuel : Nat) (melds : List Meld) (hand : List Slot),
      meldsOK melds = true → meldsOK (botAddLoop fuel melds hand).1 = true := by
  intro fuel
  induction fuel with
  | zero => intro melds hand h; exact h
  | succ f ih =>
      intro melds hand h
      rw [botAddLoop]
      split
      · cases hfind : findMeldAddition melds hand with
        | none => exact h
        | some t =>
            obtain ⟨j, m, i, card, pos⟩ := t
            obtain ⟨hj, hvalid⟩ := findMeldAddition_spec melds hand j m i
              card pos hfind
            refine ih _ _ ?_
            rw [meldsOK_iff]
            intro x hx
            rcases modifyMeldAt_mem melds j _ x hx with hx2 | ⟨m2, hm2, rfl⟩
            · exact (meldsOK_iff melds).1 h x hx2
            · have hm2m : m2 = m := by
                rw [hj] at hm2
                exact (Option.some.inj hm2).symm
              subst hm2m
              by_cases hpos : pos = "start"
              · rw [if_pos hpos] at hvalid ⊢
                simp only []
                exact ⟨isValidMeld_length _ hvalid, hvalid⟩
              · rw [if_neg hpos] at hvalid ⊢
                simp only []
                exact ⟨isValidMeld_length _ hvalid, hvalid⟩
      · exact h

/-- Strategy 3 preserves the meld invariant. -/
lemma botPlayMeldsLoop_meldsOK :
    ∀ (cands : List (List Card)) (pid : String) (freshIds : Nat → String)
      (hand : List Slot) (melds : List Meld),
      meldsOK melds = true →
      meldsOK (botPlayMeldsLoop pid freshIds cands hand melds).2 = true := by
  intro cands
  induction cands with
  | nil => intro pid freshIds hand melds h; exact h
  | cons mc rest ih =>
      intro pid freshIds hand melds h
      rw [botPlayMeldsLoop]
      split
      · exact ih pid freshIds hand melds h
      · split
        · refine ih pid freshIds _ _ ?_
          rw [meldsOK_iff]
          intro x hx
          rcases List.mem_append.1 hx with hx2 | hx2
          · exact (meldsOK_iff melds).1 h x hx2
          · rw [List.mem_singleton] at hx2
            subst hx2
            have hv : isValidMeld mc = true := by assumption
            exact ⟨isValidMeld_length _ hv, hv⟩
        · exact ih pid freshIds hand melds h

lemma setHand_melds (s : GameState) (i : Nat) (h : List Slot) :
    (setHand s i h).melds = s.melds := rfl

lemma drawCard_melds (sh : List Slot → List Slot) (s : GameState)
    (pid src : String) : (drawCard sh s pid src).1.melds = s.melds := by
  simp only [drawCard]
  repeat' split
  all_goals rfl

lemma discard_melds (s : GameState) (pid cardId : String) :
    (discard s pid cardId).1.melds = s.melds := by
  simp only [discard]
  repeat' split
  all_goals rfl

lemma playMeld_melds_cases (s : GameState) (pid freshId : String)
    (cardIds : List String) :
    (playMeld s pid cardIds freshId).1.melds = s.melds ∨
    ∃ cards, isValidMeld cards = true ∧
      (playMeld s pid cardIds freshId).1.melds =
        s.melds ++ [{ cards := cards, playerId := pid, id := freshId }] := by
  simp only [playMeld]
  repeat' split
  all_goals try (left; rfl)
  right
  refine ⟨_, ?_, rfl⟩
  by_contra hv
  simp_all

lemma playMeld_meldsOK (s : GameState) (pid freshId : String)
    (cardIds : List String) (h : meldsOK s.melds = true) :
    meldsOK (playMeld s pid cardIds freshId).1.melds = true := by
  rcases playMeld_melds_cases s pid freshId cardIds with heq | ⟨cards, hv, heq⟩
  · rw [heq]; exact h
  · rw [heq, meldsOK_iff]
    intro m hm
    rcases List.mem_append.1 hm with hm2 | hm2
    · exact (meldsOK_iff _).1 h m hm2
    · rw [List.mem_singleton] at hm2
      subst hm2
      exact ⟨isValidMeld_length _ hv, hv⟩

lemma setMeldCards_mem :
    ∀ (melds : List Meld) (meldId : String) (newCards : List Card)
      (x : Meld), x ∈ setMeldCards melds meldId newCards →
      x ∈ melds ∨ x.cards = newCards := by
  intro melds
  induction melds with
  | nil => intro meldId newCards x hx; simp [setMeldCards] at hx
  | cons m rest ih =>
      intro meldId newCards x hx
      rw [setMeldCards] at hx
      split at hx
      · rcases List.mem_cons.1 hx with rfl | hx2
        · exact Or.inr rfl
        · exact Or.inl (List.mem_cons_of_mem _ hx2)
      · rcases List.mem_cons.1 hx with rfl | hx2
        · exact Or.inl (List.mem_cons_self _ _)
        · rcases ih meldId newCards x hx2 with h | h
          · exact Or.inl (List.mem_cons_of_mem _ h)
          · exact Or.inr h

lemma addToMeld_melds_cases (s : GameState)
    (pid cardId meldId position : String) :
    (addToMeld s pid cardId meldId position).1.melds = s.melds ∨
    ∃ newCards, isValidMeld newCards = true ∧
      (addToMeld s pid cardId meldId position).1.melds =
        setMeldCards s.melds meldId newCards := by
  simp only [addToMeld]
  repeat' split
  all_goals try (left; rfl)
  all_goals right
  all_goals refine ⟨_, ?_, rfl⟩
  all_goals by_contra hv
  all_goals simp_all

lemma addToMeld_meldsOK (s : GameState)
    (pid cardId meldId position : String) (h : meldsOK s.melds = true) :
    meldsOK (addToMeld s pid cardId meldId position).1.melds = true := by
  rcases addToMeld_melds_cases s pid cardId meldId position with
    heq | ⟨newCards, hv, heq⟩
  · rw [heq]; exact h
  · rw [heq, meldsOK_iff]
    intro m hm
    rcases setMeldCards_mem s.melds meldId newCards m hm with hm2 | hm2
    · exact (meldsOK_iff _).1 h m hm2
    · rw [hm2]
      exact ⟨isValidMeld_length _ hv, hv⟩

lemma validateRearrangement_valid_find_none (cur prop : List Meld)
    (hand : List Slot)
    (h : (validateRearrangement cur prop hand).valid = true) :
    findInvalidMeldError prop 0 = none := by
  simp only [validateRearrangement] at h
  repeat' split at h
  all_goals simp_all

lemma findInvalidMeldError_none :
    ∀ (prop : List Meld) (i : Nat), findInvalidMeldError prop i = none →
      ∀ m ∈ prop, 0 < m.cards.length → isValidMeld m.cards = true := by
  intro prop
  induction prop with
  | nil => intro i h m hm; simp at hm
  | cons m0 rest ih =>
      intro i h x hx hlen
      rw [findInvalidMeldError] at h
      split at h
      · exact absurd h (by simp)
      · rcases List.mem_cons.1 hx with rfl | hx2
        · by_contra hv
          have hvf : isValidMeld x.cards = false := by
            revert hv
            cases isValidMeld x.cards <;> simp
          simp_all
        · exact ih (i + 1) h x hx2 hlen

lemma rearrangeTable_melds_cases (s : GameState) (pid : String)
    (proposedMelds : List Meld) (cardsFromHand : List String) :
    (rearrangeTable s pid proposedMelds cardsFromHand).1.melds = s.melds ∨
    (findInvalidMeldError proposedMelds 0 = none ∧
      (rearrangeTable s pid proposedMelds cardsFromHand).1.melds =
        proposedMelds.filter (fun m => m.cards.length > 0)) := by
  simp only [rearrangeTable]
  repeat' split
  all_goals try (left; rfl)
  rename_i player hp hvcond hkeep
  right
  refine ⟨?_, rfl⟩
  have hvt : (validateRearrangement s.melds proposedMelds
      player.hand).valid = true := by
    by_contra hv
    simp_all
  exact validateRearrangement_valid_find_none _ _ _ hvt

lemma rearrangeTable_meldsOK (s : GameState) (pid : String)
    (proposedMelds : List Meld) (cardsFromHand : List String)
    (h : meldsOK s.melds = true) :
    meldsOK (rearrangeTable s pid proposedMelds cardsFromHand).1.melds =
      true := by
  rcases rearrangeTable_melds_cases s pid proposedMelds cardsFromHand with
    heq | ⟨hfind, heq⟩
  · rw [heq]; exact h
  · rw [heq, meldsOK_iff]
    intro m hm
    rw [List.mem_filter] at hm
    obtain ⟨hmem, hlen⟩ := hm
    have hv := findInvalidMeldError_none proposedMelds 0 hfind m hmem
      (by simpa using hlen)
    exact ⟨isValidMeld_length _ hv, hv⟩

lemma botStrategy1_meldsOK (freshIds : Nat → String) (s1 : GameState)
    (cp1 : Player) (h : meldsOK s1.melds = true) :
    meldsOK (botStrategy1 freshIds s1 cp1).melds = true := by
  simp only [botStrategy1]
  split
  · split
    · rw [setHand_melds]
      exact tryBotRearrangement_newMelds_ok _ _ _ _
    · exact h
  · exact h

lemma botStrategy2_meldsOK (s2 : GameState) (cp2 : Player)
    (h : meldsOK s2.melds = true) :
    meldsOK (botStrategy2 s2 cp2).melds = true := by
  simp only [botStrategy2]
  rw [setHand_melds]
  exact botAddLoop_meldsOK _ _ _ h

lemma botStrategy3_meldsOK (freshIds : Nat → String) (s3 : GameState)
    (cp3 : Player) (h : meldsOK s3.melds = true) :
    meldsOK (botStrategy3 freshIds s3 cp3).melds = true := by
  simp only [botStrategy3]
  rw [setHand_melds]
  exact botPlayMeldsLoop_meldsOK _ _ _ _ _ h

lemma botDiscardStep_melds (s4 : GameState) (cp4 : Player) :
    (botDiscardStep s4 cp4).melds = s4.melds := by
  simp only [botDiscardStep]
  repeat' split
  all_goals rfl

lemma botDrawStep_inl_melds (sh : List Slot → List Slot) (s : GameState)
    (cp0 : Player) (s1 : GameState) (h : botDrawStep sh s cp0 = Sum.inl s1) :
    s1.melds = s.melds := by
  simp only [botDrawStep] at h
  repeat' split at h
  all_goals first
    | (cases h; rfl)
    | exact Sum.noConfusion h

lemma botDrawStep_inr_melds (sh : List Slot → List Slot) (s : GameState)
    (cp0 : Player) (out : GameState × Option BotOutcome)
    (h : botDrawStep sh s cp0 = Sum.inr out) : out.1.melds = s.melds := by
  simp only [botDrawStep] at h
  repeat' split at h
  all_goals first
    | (cases h; rfl)
    | exact Sum.noConfusion h

lemma botPlayPhase_meldsOK (freshIds : Nat → String) (s1 : GameState)
    (h : meldsOK s1.melds = true) :
    meldsOK (botPlayPhase freshIds s1).1.melds = true := by
  rw [botPlayPhase]
  cases hcp1 : s1.players[s1.currentTurn]? with
  | none => exact h
  | some cp1 =>
      dsimp only
      have h2 := botStrategy1_meldsOK freshIds s1 cp1 h
      cases hcp2 : (botStrategy1 freshIds s1 cp1).players[
          (botStrategy1 freshIds s1 cp1).currentTurn]? with
      | none => exact h2
      | some cp2 =>
          dsimp only
          have h3 := botStrategy2_meldsOK _ cp2 h2
          cases hcp3 : (botStrategy2 (botStrategy1 freshIds s1 cp1)
              cp2).players[(botStrategy2 (botStrategy1 freshIds s1 cp1)
              cp2).currentTurn]? with
          | none => exact h3
          | some cp3 =>
              dsimp only
              have h4 := botStrategy3_meldsOK freshIds _ cp3 h3
              cases hcp4 : (botStrategy3 freshIds (botStrategy2
                  (botStrategy1 freshIds s1 cp1) cp2) cp3).players[
                  (botStrategy3 freshIds (botStrategy2
                  (botStrategy1 freshIds s1 cp1) cp2)
                  cp3).currentTurn]? with
              | none => exact h4
              | some cp4 =>
                  dsimp only
                  split
                  · exact h4
                  · have h5 : meldsOK (botDiscardStep (botStrategy3 freshIds
                        (botStrategy2 (botStrategy1 freshIds s1 cp1) cp2)
                        cp3) cp4).melds = true := by
                      rw [botDiscardStep_melds]
                      exact h4
                    cases hcp5 : (botDiscardStep (botStrategy3 freshIds
                        (botStrategy2 (botStrategy1 freshIds s1 cp1) cp2)
                        cp3) cp4).players[(botDiscardStep (botStrategy3
                        freshIds (botStrategy2 (botStrategy1 freshIds s1 cp1)
                        cp2) cp3) cp4).currentTurn]? with
                    | none => exact h5
                    | some cp5 =>
                        dsimp only
                        split
                        · exact h5
                        · exact h5

lemma playBotTurn_meldsOK (sh : List Slot → List Slot)
    (freshIds : Nat → String) (s : GameState) (h : meldsOK s.melds = true) :
    meldsOK (playBotTurn sh freshIds s).1.melds = true := by
  rw [playBotTurn]
  split
  · exact h
  · cases hcp : s.players[s.currentTurn]? with
    | none => exact h
    | some cp0 =>
        dsimp only
        split
        · exact h
        · cases hds : botDrawStep sh s cp0 with
          | inr out =>
              dsimp only
              have hmelds := botDrawStep_inr_melds sh s cp0 out hds
              rw [hmelds]
              exact h
          | inl s1 =>
              dsimp only
              have hs1 : meldsOK s1.melds = true := by
                rw [botDrawStep_inl_melds sh s cp0 s1 hds]
                exact h
              split
              · exact botPlayPhase_meldsOK freshIds s1 hs1
              · exact hs1

/-- **C2**: the meld-legality invariant is preserved by every mutating
operation — in fact by every call, successful or not: if every table
meld has 3+ cards and passes `isValidMeld` before a `drawCard`,
`playMeld`, `addToMeld`, `rearrangeTable`, `discard` or full
`playBotTurn`, the same holds of every table meld afterwards. -/
theorem C2_meld_invariant (sh : List Slot → List Slot)
    (freshIds : Nat → String) (s : GameState)
    (pid src cardId meldId position freshId : String)
    (cardIds cardsFromHand : List String) (proposedMelds : List Meld)
    (h : meldsOK s.melds = true) :
    meldsOK (drawCard sh s pid src).1.melds = true ∧
    meldsOK (playMeld s pid cardIds freshId).1.melds = true ∧
    meldsOK (addToMeld s pid cardId meldId position).1.melds = true ∧
    meldsOK (rearrangeTable s pid proposedMelds cardsFromHand).1.melds = true ∧
    meldsOK (discard s pid cardId).1.melds = true ∧
    meldsOK (playBotTurn sh freshIds s).1.melds = true := by
  refine ⟨?_, ?_, ?_, ?_, ?_, ?_⟩
  · rw [drawCard_melds]; exact h
  · exact playMeld_meldsOK s pid freshId cardIds h
  · exact addToMeld_meldsOK s pid cardId meldId position h
  · exact rearrangeTable_meldsOK s pid proposedMelds cardsFromHand h
  · rw [discard_melds]; exact h
  · exact playBotTurn_meldsOK sh freshIds s h

/-- A play-phase position with one valid table meld and a hand that
can play `[4♥,5♥,6♥]` while keeping a card. -/
def c2State : GameState :=
  { lobbyCode := "L"
    players :=
      [{ id := "p0", name := "Alice"
         hand := [some cH4, some cH5, some cH6, some cC7]
         connected := true, isTestPlayer := false },
       { id := "p1", name := "Bob", hand := [some cD2, some cD3]
         connected := true, isTestPlayer := false }]
    deck := [some cS10]
    discardPile := [some cSJ]
    melds := [{ cards := [cSQ, cSK, cSA], playerId := "p1", id := "m1" }]
    currentTurn := 0
    phase := "play"
    winner := none
    settings := { numDecks := 1 } }

/-- Witness for C2: on `c2State` (one valid meld on the table), a
successful `playMeld` of `[4♥,5♥,6♥]` leaves every table meld legal. -/
theorem C2_witness :
    meldsOK c2State.melds = true ∧
    (playMeld c2State "p0"
      ["0_4_hearts", "0_5_hearts", "0_6_hearts"] "m2").2.success = true ∧
    meldsOK (playMeld c2State "p0"
      ["0_4_hearts", "0_5_hearts", "0_6_hearts"] "m2").1.melds = true := by
  refine ⟨by decide, by decide, ?_⟩
  exact (C2_meld_invariant id (fun _ => "b") c2State "p0" "deck" "x"
    "m1" "end" "m2" ["0_4_hearts", "0_5_hearts", "0_6_hearts"] [] []
    (by decide)).2.1

end GinRummy
